import Mathlib

set_option maxRecDepth 8000

/-!
Verification of the KC85 ROM-module image builder (`kc85.py`).

The definitions below are a shallow embedding of the core of `kc85.py`:
bytes are modelled as `Nat` (each intended `< 256`), byte strings as
`List Nat`, Python strings as `List Char`, and every `raise InputError`
site as a typed error constructor (following the error kinds of the
design document).  File-system side effects are out of scope: the
manifest/IO layer hands the core a list of raw `(filename, content)`
pairs and receives the final image as a byte list (`build` below).

Python `assert` statements that are genuine run-time exceptions in every
execution (IndexError on `extension[0]` for a dot-less name,
OverflowError in `int.to_bytes`, UnicodeEncodeError in `str.encode`)
are modelled as the `Err.internalAssert` outcome.  Pure consistency
`assert`s whose conditions are provable on all reachable states
(`kc85.py` lines 209, 211, 222, 239, 281, 285, 294, 307) are not made
part of the control flow; the facts they check are proved as theorems
below instead.
-/

/-- Typed error kinds of the builder (design document §7), plus
`noInputFiles` for an empty input list and `internalAssert` for the
fatal internal assertion/exception outcomes. -/
inductive Err where
  | unsupportedVariant
  | noInputFiles
  | nameTooLong
  | nonAsciiName
  | tooManyFiles
  | duplicateName
  | imageOverflow
  | directoryDoesNotFit
  | noSlotForFiller
  | internalAssert
deriving DecidableEq, Repr

/-- The layout constants returned by `get_config` (`kc85.py:27`). -/
structure Config where
  directory_entry_size : Nat
  max_stem_size : Nat
  max_extension_size : Nat
  cluster_size : Nat
  padding_size : Nat
  sector_size : Nat
  max_number_of_files : Nat
  final_file_size : Nat
deriving DecidableEq, Repr

/-- `get_config` (`kc85.py:27-50`): maps the variant tag to the layout
constants; any other tag is the `UnsupportedVariant` user error. -/
def get_config (modus : String) : Except Err Config :=
  if modus = "M048" then
    .ok ⟨16, 8, 3, 16 * 1024, 4 * 1024, 128, 32, 256 * 1024⟩
  else if modus = "M049" then
    .ok ⟨16, 8, 3, 16 * 1024, 4 * 1024, 128, 64, 512 * 1024⟩
  else .error .unsupportedVariant

/-- The `FileContent` namedtuple (`kc85.py:12`): a resolved file name,
its raw bytes and the starting sector (`-1` until the file is written). -/
structure FileContent where
  filename : List Char
  content : List Nat
  starting_sector : Int
deriving DecidableEq, Repr

instance : Inhabited FileContent := ⟨⟨[], [], -1⟩⟩

instance {ε α : Type} [DecidableEq ε] [DecidableEq α] : DecidableEq (Except ε α) := fun a b =>
  match a, b with
  | .error e1, .error e2 =>
    if h : e1 = e2 then .isTrue (by rw [h])
    else .isFalse (by intro hh; cases hh; exact h rfl)
  | .error _, .ok _ => .isFalse (by intro hh; cases hh)
  | .ok _, .error _ => .isFalse (by intro hh; cases hh)
  | .ok a1, .ok a2 =>
    if h : a1 = a2 then .isTrue (by rw [h])
    else .isFalse (by intro hh; cases hh; exact h rfl)

/-- Index of the last occurrence of `c` in `s` (Python `str.rfind`,
as `Option` instead of the `-1` sentinel). -/
def rfind (c : Char) (s : List Char) : Option Nat :=
  (List.range s.length).foldl
    (fun acc i => if s.getD i ' ' = c then some i else acc) none

/-- `pathlib.Path(p).name`: the component after the last `/`. -/
def basename (p : List Char) : List Char :=
  (p.reverse.takeWhile (fun c => c ≠ '/')).reverse

/-- `os.path.splitext` (CPython `genericpath._splitext`): split at the
last `.`, but only when some non-`.` character lies strictly between the
last path separator and that dot — a name whose only leading characters
are dots (such as `.data`) is all stem and has no extension.  The
returned extension keeps its leading dot, exactly as in Python. -/
def splitext (p : List Char) : List Char × List Char :=
  match rfind '.' p with
  | none => (p, [])
  | some d =>
    let sepIdx : Int := match rfind '/' p with | none => -1 | some k => (k : Int)
    if (d : Int) > sepIdx then
      let start := (sepIdx + 1).toNat
      if ((p.drop start).take (d - start)).any (fun c => c ≠ '.') then
        (p.take d, p.drop d)
      else (p, [])
    else (p, [])

/-- `resolve_name` (`kc85.py:70-93`): take the basename, split it with
`splitext`, fail `NameTooLong` when the stem exceeds 8 characters or the
dot-prefixed extension exceeds 4 characters (3 characters after the
dot), then fail `NonAsciiName` when `encode("ascii")` would raise, and
otherwise return the basename unchanged. -/
def resolve_name (p : List Char) : Except Err (List Char) :=
  let n := basename p
  let se := splitext n
  if 8 < se.1.length then .error .nameTooLong
  else if 4 < se.2.length then .error .nameTooLong
  else if ¬ n.all (fun c => c.toNat < 128) then .error .nonAsciiName
  else .ok n

/-- Sequential, fail-fast map over a list (the Python `for` loops that
`raise` on the first bad element). -/
def except_map_list (f : α → Except Err β) : List α → Except Err (List β)
  | [] => .ok []
  | x :: xs =>
    match f x with
    | .error e => .error e
    | .ok y =>
      match except_map_list f xs with
      | .error e => .error e
      | .ok ys => .ok (y :: ys)

/-- The validation part of `get_file_contents` (`kc85.py:124-148`) after
the manifest and the file bytes have been read: at most
`max_number_of_files` entries (`TooManyFiles`), all *raw* manifest names
pairwise distinct (`DuplicateName`, Python `len(files) > len(set(files))`),
then each name resolved by `resolve_name`; the starting sector is the
`-1` placeholder. -/
def validate_files (config : Config) (files : List (List Char × List Nat)) :
    Except Err (List FileContent) :=
  if config.max_number_of_files < files.length then .error .tooManyFiles
  else if ¬ (files.map Prod.fst).Nodup then .error .duplicateName
  else
    except_map_list
      (fun p =>
        match resolve_name p.1 with
        | .error e => .error e
        | .ok rn => .ok (⟨rn, p.2, -1⟩ : FileContent))
      files

/-- The padding-waste score of `move_smallest_file_to_back`
(`kc85.py:158`): `max(0, len(content) - 1) % padding_size`. -/
def waste_score (padding : Nat) (c : List Nat) : Int :=
  (max 0 ((c.length : Int) - 1)) % (padding : Int)

/-- Python `min` over a list of `(score, index)` pairs: keep the current
minimum, replacing it only when the next pair is lexicographically
strictly smaller (so the first pair with the minimal score wins). -/
def py_min_fold : (Int × Nat) → List (Int × Nat) → (Int × Nat)
  | best, [] => best
  | best, p :: rest =>
    py_min_fold (if p.1 < best.1 ∨ (p.1 = best.1 ∧ p.2 < best.2) then p else best) rest

/-- The simultaneous swap `l[i], l[j] = l[j], l[i]` of Python: both
right-hand values are read from the original list before the two
assignments. -/
def list_swap [Inhabited α] (l : List α) (i j : Nat) : List α :=
  (l.set i (l.getD j default)).set j (l.getD i default)

/-- `move_smallest_file_to_back` (`kc85.py:153-160`): score every entry
with `waste_score`, pick the lexicographic minimum of the
`(score, index)` pairs (Python `min` over `enumerate`, modelled with an
index range), swap that entry with the last one and return its original
index.  Python raises on an empty list; the `[]` branch is unreachable
because `build` rejects an empty input list first. -/
def move_smallest_file_to_back (config : Config) (contents : List FileContent) :
    List FileContent × Nat :=
  match (List.range contents.length).map
      (fun i => (waste_score config.padding_size (contents.getD i default).content, i)) with
  | [] => (contents, 0)
  | s :: ss =>
    let m := py_min_fold s ss
    (list_swap contents (contents.length - 1) m.2, m.2)

/-- The write loop of `write_files_with_padding` (`kc85.py:175-184`):
for each file, record the starting sector (`tell() // sector_size`
before the write), append the raw content and then zero bytes up to the
next `padding_size` boundary — a full extra block when the length is
already an exact multiple. -/
def write_files_loop (config : Config) : List FileContent → List Nat →
    List FileContent × List Nat
  | [], buf => ([], buf)
  | fc :: rest, buf =>
    let nfc : FileContent :=
      ⟨fc.filename, fc.content, ((buf.length / config.sector_size : Nat) : Int)⟩
    let buf2 := buf ++ fc.content ++
      List.replicate (config.padding_size - fc.content.length % config.padding_size) 0
    let r := write_files_loop config rest buf2
    (nfc :: r.1, r.2)

/-- `write_files_with_padding` (`kc85.py:167-193`): run the write loop
from an empty output, then fail `ImageOverflow` when the produced bytes
exceed `final_file_size`. -/
def write_files_with_padding (config : Config) (contents : List FileContent) :
    Except Err (List FileContent × List Nat) :=
  let r := write_files_loop config contents []
  if config.final_file_size < r.2.length then .error .imageOverflow
  else .ok r

/-- `pad_file_until_directory_with_dummy_rom` (`kc85.py:196-245`).
Free blocks are counted in `padding_size` units, one being reserved for
the directory when any is left.  If the content exactly fills the image,
the directory must fit in the trailing padding of the last written file
(`DirectoryDoesNotFit` otherwise); else a `DUMMY.ROM` entry of `0xE5`
filler is appended (`NoSlotForFiller` when all slots are used).  Finally
the last `space_need_for_directory` bytes are truncated away
(`file.truncate` after seeking from the end).  `contents.getLastD`
models `contents[-1]`, which Python only evaluates with a non-empty
list on this path. -/
def pad_file_until_directory_with_dummy_rom (config : Config)
    (contents : List FileContent) (buf : List Nat) :
    Except Err (List FileContent × List Nat × Nat) :=
  let space_need := config.max_number_of_files * config.directory_entry_size
  let fsz := buf.length
  let free0 := config.final_file_size / config.padding_size - fsz / config.padding_size
  let free := if 0 < free0 then free0 - 1 else free0
  if fsz = config.final_file_size then
    let space_left :=
      config.padding_size - (contents.getLastD default).content.length % config.padding_size
    if space_left < space_need then .error .directoryDoesNotFit
    else .ok (contents, buf.take (buf.length - space_need), free)
  else
    if contents.length = config.max_number_of_files then .error .noSlotForFiller
    else
      let dummy_content := List.replicate (config.final_file_size - fsz) 0xE5
      let dummy : FileContent :=
        ⟨"DUMMY.ROM".data, dummy_content, ((fsz / config.sector_size : Nat) : Int)⟩
      let buf2 := buf ++ dummy_content
      .ok (contents ++ [dummy], buf2.take (buf2.length - space_need), free)

/-- `get_bit` (`kc85.py:248`). -/
def get_bit (value : Nat) (bit : Nat) : Nat :=
  if value &&& (1 <<< bit) ≠ 0 then 1 else 0

/-- `set_bit` (`kc85.py:251`). -/
def set_bit (value : Nat) (bit : Nat) : Nat :=
  value ||| (1 <<< bit)

/-- Python `int.to_bytes(nbytes, byteorder="little")`: the little-endian
bytes, or OverflowError (modelled `internalAssert`) when the value is
negative or does not fit. -/
def to_bytes_le (nbytes : Nat) (v : Int) : Except Err (List Nat) :=
  if 0 ≤ v ∧ v < (256 : Int) ^ nbytes then
    .ok ((List.range nbytes).map (fun i => v.toNat / 256 ^ i % 256))
  else .error .internalAssert

/-- `create_directory_entry` (`kc85.py:255-286`): split the resolved
name again, require a dot-prefixed extension (`assert(extension[0] ==
".")` — an uncaught exception for a dot-less name), encode byte 0 as
`0x01`, the space-padded stem and extension (ASCII, or
UnicodeEncodeError), the full-cluster count, the 16-bit little-endian
starting sector and the 1-indexed 128-byte-sector count of the last
partial cluster (`math.ceil((len % cluster_size) / 128)`, which for
these magnitudes is exact and equals `(len % cluster_size + 127) / 128`),
then force bit 7 of the bytes at indices 2, 8 and 9. -/
def create_directory_entry (config : Config) (fc : FileContent) :
    Except Err (List Nat) :=
  let stem := (splitext fc.filename).1
  let extD := (splitext fc.filename).2
  if extD.headD ' ' = '.' then
    let ext := extD.drop 1
    if stem.all (fun c => c.toNat < 128) then
      if ext.all (fun c => c.toNat < 128) then
        match to_bytes_le 1 ((fc.content.length / config.cluster_size : Nat) : Int) with
        | .error e => .error e
        | .ok nc =>
          match to_bytes_le 2 fc.starting_sector with
          | .error e => .error e
          | .ok sb =>
            match to_bytes_le 1
                (((fc.content.length % config.cluster_size + 127) / 128 : Nat) : Int) with
            | .error e => .error e
            | .ok nr =>
              let r0 := [1] ++ stem.map Char.toNat ++
                List.replicate (config.max_stem_size - stem.length) 0x20 ++
                ext.map Char.toNat ++
                List.replicate (config.max_extension_size - ext.length) 0x20 ++
                nc ++ sb ++ nr
              let r1 := r0.set 2 (set_bit (r0.getD 2 0) 7)
              let r2 := r1.set 8 (set_bit (r1.getD 8 0) 7)
              let r3 := r2.set 9 (set_bit (r2.getD 9 0) 7)
              .ok r3
      else .error .internalAssert
    else .error .internalAssert
  else .error .internalAssert

/-- `write_directory` (`kc85.py:289-308`): reserve the directory region
with `pad_file_until_directory_with_dummy_rom`, encode one 16-byte
record per file in write order, swap the last record with the one at
`swapped_with_back_id`, and append one `0xE5`-filled 16-byte record per
unused slot.  Also returns the file list after padding (the Python list
is mutated in place, so the caller observes the appended dummy) and the
free-block count. -/
def write_directory (config : Config) (contents : List FileContent)
    (buf : List Nat) (swapped_with_back_id : Nat) :
    Except Err (List Nat × List FileContent × Nat) :=
  match pad_file_until_directory_with_dummy_rom config contents buf with
  | .error e => .error e
  | .ok pr =>
    match except_map_list (create_directory_entry config) pr.1 with
    | .error e => .error e
    | .ok entries =>
      let entries2 := list_swap entries (entries.length - 1) swapped_with_back_id
      .ok (pr.2.1 ++ entries2.flatten ++
             List.replicate ((config.max_number_of_files - pr.1.length) * 16) 0xE5,
           pr.1, pr.2.2)

/-- The core pipeline of `main` (`kc85.py:318-324`) after the manifest
and the file bytes have been read: resolve the variant, reject an empty
input list (`kc85.py:111`, checked before the variant in
`get_file_contents`), validate, choose the write order, write the
padded contents and write the directory.  Returns the final image, the
final file list (including a synthesized dummy) and the free-block
count. -/
def build (modus : String) (files : List (List Char × List Nat)) :
    Except Err (List Nat × List FileContent × Nat) :=
  if files.length = 0 then .error .noInputFiles
  else
    match get_config modus with
    | .error e => .error e
    | .ok config =>
      match validate_files config files with
      | .error e => .error e
      | .ok contents =>
        let ms := move_smallest_file_to_back config contents
        match write_files_with_padding config ms.1 with
        | .error e => .error e
        | .ok wr => write_directory config wr.1 wr.2 ms.2

/-- The padded size a file occupies in the content region: raw length
rounded up to the next `padding` boundary, a full extra block when the
length is already an exact multiple (design document §4.4/§9). -/
def padded_size (padding : Nat) (fc : FileContent) : Nat :=
  fc.content.length + (padding - fc.content.length % padding)

/-- Total content-region size of a file list (the `usedSize` of the
design document §4.3 step 3/4). -/
def used_size (padding : Nat) (l : List FileContent) : Nat :=
  (l.map (padded_size padding)).sum

/-- Modelled from the spec: the name split C8 claims — split on the
*last* dot unconditionally, stem before it, extension after it (no dot
means an empty extension).  This intentionally follows the words of the
specification, to be compared against the Python `splitext` above. -/
def spec_split_last_dot (s : List Char) : List Char × List Char :=
  match rfind '.' s with
  | none => (s, [])
  | some d => (s.take d, s.drop (d + 1))

/-- The `M048` configuration (`maxFileCount = 32`, 256 KiB image). -/
def config_M048 : Config := ⟨16, 8, 3, 16 * 1024, 4 * 1024, 128, 32, 256 * 1024⟩

/-- The `M049` configuration (`maxFileCount = 64`, 512 KiB image). -/
def config_M049 : Config := ⟨16, 8, 3, 16 * 1024, 4 * 1024, 128, 64, 512 * 1024⟩

/-- The bytes one file contributes to the content region: raw content
followed by the zero padding of `write_files_loop`. -/
def file_chunk (padding : Nat) (fc : FileContent) : List Nat :=
  fc.content ++ List.replicate (padding - fc.content.length % padding) 0

/-- A resolved name as `resolve_name` guarantees it: stem at most 8 and
dot-prefixed extension at most 4 characters under `splitext`. -/
def name_ok (n : List Char) : Prop :=
  (splitext n).1.length ≤ 8 ∧ (splitext n).2.length ≤ 4

/-- Lexicographic (non-strict) order on `(score, index)` pairs. -/
def pair_le (a b : Int × Nat) : Prop :=
  a.1 < b.1 ∨ (a.1 = b.1 ∧ a.2 ≤ b.2)

/-- Scenario A of the design document §8: two `M048` input files of
5000 and 3000 content bytes. -/
def scenario_a_files : List (List Char × List Nat) :=
  [("A.X".data, List.replicate 5000 0), ("B.X".data, List.replicate 3000 0)]

/-- The file list `build` produces for `scenario_a_files`: the 5000-byte
file is moved to the back (its waste score 4999 % 4096 = 903 is the
minimum) and a 249856-byte `DUMMY.ROM` filler is appended. -/
def scenario_a_contents : List FileContent :=
  [⟨"B.X".data, List.replicate 3000 0, 0⟩,
   ⟨"A.X".data, List.replicate 5000 0, 32⟩,
   ⟨"DUMMY.ROM".data, List.replicate 249856 229, 96⟩]

/-- The image `build` produces for `scenario_a_files`: 261632 content
bytes (12288 bytes of padded file content, then `0xE5` filler) followed
by the 512-byte directory region listing `DUMMY.ROM`, `A.X`, `B.X` and
29 empty slots. -/
def scenario_a_image : List Nat :=
  (List.replicate 3000 0 ++ List.replicate 1096 0 ++ List.replicate 5000 0 ++
   List.replicate 3192 0 ++ List.replicate 249856 229).take 261632 ++
  ([1, 68, 213, 77, 77, 89, 32, 32, 160, 210, 79, 77, 15, 96, 0, 32] ++
   [1, 65, 160, 32, 32, 32, 32, 32, 160, 216, 32, 32, 0, 32, 0, 40] ++
   [1, 66, 160, 32, 32, 32, 32, 32, 160, 216, 32, 32, 0, 0, 0, 24] ++
   List.replicate 464 229)

/-- Input exhibiting the directory-order defect: three `M048` files
whose minimum-waste entry is the *first* one, plus room for a dummy. -/
def c1_files : List (List Char × List Nat) :=
  [("A.X".data, List.replicate 1 0),
   ("B.X".data, List.replicate 100 0),
   ("C.X".data, List.replicate 200 0)]

/-- The directory region `build` actually produces for `c1_files`: the
record order is `DUMMY.ROM`, `B.X`, `A.X`, `C.X` — the swap at
`kc85.py:299` exchanged the *dummy* record (now last) with the record at
the recorded index 0, so the real entries are listed as B, A, C instead
of the input order A, B, C. -/
def c1_directory : List Nat :=
  [1, 68, 213, 77, 77, 89, 32, 32, 160, 210, 79, 77, 15, 96, 0, 32] ++
  [1, 66, 160, 32, 32, 32, 32, 32, 160, 216, 32, 32, 0, 32, 0, 1] ++
  [1, 65, 160, 32, 32, 32, 32, 32, 160, 216, 32, 32, 0, 64, 0, 1] ++
  [1, 67, 160, 32, 32, 32, 32, 32, 160, 216, 32, 32, 0, 0, 0, 2] ++
  List.replicate 448 229

/-! ### Helper lemmas -/

theorem pair_le_refl (a : Int × Nat) : pair_le a a := Or.inr ⟨rfl, le_refl _⟩

theorem pair_le_trans {a b c : Int × Nat} (h1 : pair_le a b) (h2 : pair_le b c) :
    pair_le a c := by
  unfold pair_le at h1 h2 ⊢
  rcases h1 with h1 | ⟨h1, h1'⟩ <;> rcases h2 with h2 | ⟨h2, h2'⟩ <;> omega

theorem pair_le_of_not_cond {p b : Int × Nat}
    (h : ¬(p.1 < b.1 ∨ (p.1 = b.1 ∧ p.2 < b.2))) : pair_le b p := by
  unfold pair_le
  push_neg at h
  omega

theorem pair_le_of_cond {p b : Int × Nat}
    (h : p.1 < b.1 ∨ (p.1 = b.1 ∧ p.2 < b.2)) : pair_le p b := by
  unfold pair_le
  omega

theorem py_min_fold_le :
    ∀ (l : List (Int × Nat)) (b : Int × Nat),
      pair_le (py_min_fold b l) b ∧ ∀ q ∈ l, pair_le (py_min_fold b l) q := by
  intro l
  induction l with
  | nil =>
    intro b
    exact ⟨pair_le_refl b, by intro q hq; simp at hq⟩
  | cons p rest ih =>
    intro b
    simp only [py_min_fold]
    by_cases hc : p.1 < b.1 ∨ (p.1 = b.1 ∧ p.2 < b.2)
    · rw [if_pos hc]
      obtain ⟨h1, h2⟩ := ih p
      refine ⟨pair_le_trans h1 (pair_le_of_cond hc), ?_⟩
      intro q hq
      rcases List.mem_cons.mp hq with rfl | hq
      · exact h1
      · exact h2 q hq
    · rw [if_neg hc]
      obtain ⟨h1, h2⟩ := ih b
      refine ⟨h1, ?_⟩
      intro q hq
      rcases List.mem_cons.mp hq with rfl | hq
      · exact pair_le_trans h1 (pair_le_of_not_cond hc)
      · exact h2 q hq

theorem py_min_fold_mem :
    ∀ (l : List (Int × Nat)) (b : Int × Nat),
      py_min_fold b l = b ∨ py_min_fold b l ∈ l := by
  intro l
  induction l with
  | nil => intro b; left; rfl
  | cons p rest ih =>
    intro b
    simp only [py_min_fold]
    by_cases hc : p.1 < b.1 ∨ (p.1 = b.1 ∧ p.2 < b.2)
    · rw [if_pos hc]
      rcases ih p with h | h
      · right; simp [h]
      · right; simp [h]
    · rw [if_neg hc]
      rcases ih b with h | h
      · left; exact h
      · right; simp [h]

theorem length_list_swap [Inhabited α] (l : List α) (i j : Nat) :
    (list_swap l i j).length = l.length := by
  simp [list_swap]

theorem mem_of_mem_list_swap [Inhabited α] {l : List α} {i j : Nat}
    (hi : i < l.length) (hj : j < l.length) {a : α}
    (h : a ∈ list_swap l i j) : a ∈ l := by
  unfold list_swap at h
  rcases List.mem_or_eq_of_mem_set h with h1 | rfl
  · rcases List.mem_or_eq_of_mem_set h1 with h2 | rfl
    · exact h2
    · rw [List.getD_eq_getElem l _ hj]
      exact List.getElem_mem hj
  · rw [List.getD_eq_getElem l _ hi]
    exact List.getElem_mem hi

theorem except_map_list_ok_length {f : α → Except Err β} :
    ∀ {l : List α} {r : List β}, except_map_list f l = .ok r → r.length = l.length := by
  intro l
  induction l with
  | nil => intro r h; simp only [except_map_list] at h; cases h; rfl
  | cons x xs ih =>
    intro r h
    simp only [except_map_list] at h
    cases hfx : f x with
    | error e => rw [hfx] at h; cases h
    | ok y =>
      rw [hfx] at h
      cases hrest : except_map_list f xs with
      | error e => rw [hrest] at h; cases h
      | ok ys =>
        rw [hrest] at h
        cases h
        simp [ih hrest]

theorem except_map_list_ok_forall {f : α → Except Err β} :
    ∀ {l : List α} {r : List β}, except_map_list f l = .ok r →
      ∀ y ∈ r, ∃ x ∈ l, f x = .ok y := by
  intro l
  induction l with
  | nil =>
    intro r h
    simp only [except_map_list] at h
    cases h
    intro y hy
    simp at hy
  | cons x xs ih =>
    intro r h
    simp only [except_map_list] at h
    cases hfx : f x with
    | error e => rw [hfx] at h; cases h
    | ok y0 =>
      rw [hfx] at h
      cases hrest : except_map_list f xs with
      | error e => rw [hrest] at h; cases h
      | ok ys =>
        rw [hrest] at h
        cases h
        intro y hy
        rcases List.mem_cons.mp hy with rfl | hy
        · exact ⟨x, List.mem_cons_self x xs, hfx⟩
        · obtain ⟨x', hx', hfx'⟩ := ih hrest y hy
          exact ⟨x', List.mem_cons_of_mem x hx', hfx'⟩

theorem except_map_list_error {f : α → Except Err β} :
    ∀ {l : List α} {e : Err}, except_map_list f l = .error e →
      ∃ x ∈ l, f x = .error e := by
  intro l
  induction l with
  | nil => intro e h; simp only [except_map_list] at h; cases h
  | cons x xs ih =>
    intro e h
    simp only [except_map_list] at h
    cases hfx : f x with
    | error e0 =>
      rw [hfx] at h
      cases h
      exact ⟨x, List.mem_cons_self x xs, hfx⟩
    | ok y =>
      rw [hfx] at h
      cases hrest : except_map_list f xs with
      | error e0 =>
        rw [hrest] at h
        cases h
        obtain ⟨x', hx', hfx'⟩ := ih hrest
        exact ⟨x', List.mem_cons_of_mem x hx', hfx'⟩
      | ok ys => rw [hrest] at h; cases h

theorem except_map_list_ok_exists {f : α → Except Err β} :
    ∀ {l : List α}, (∀ x ∈ l, ∃ y, f x = .ok y) →
      ∃ r, except_map_list f l = .ok r := by
  intro l
  induction l with
  | nil => intro _; exact ⟨[], rfl⟩
  | cons x xs ih =>
    intro h
    obtain ⟨y, hy⟩ := h x (List.mem_cons_self x xs)
    obtain ⟨r, hr⟩ := ih (fun x' hx' => h x' (List.mem_cons_of_mem x hx'))
    refine ⟨y :: r, ?_⟩
    simp only [except_map_list, hy, hr]

theorem to_bytes_le_ok_length {n : Nat} {v : Int} {bs : List Nat}
    (h : to_bytes_le n v = .ok bs) : bs.length = n := by
  unfold to_bytes_le at h
  split_ifs at h
  cases h
  simp

theorem to_bytes_le_error {n : Nat} {v : Int} {e : Err}
    (h : to_bytes_le n v = .error e) : e = .internalAssert := by
  unfold to_bytes_le at h
  split_ifs at h
  cases h
  rfl

theorem to_bytes_le_one {v : Int} (h0 : 0 ≤ v) (h : v < 256) :
    to_bytes_le 1 v = .ok [v.toNat] := by
  unfold to_bytes_le
  rw [if_pos ⟨h0, by norm_num; omega⟩]
  have : v.toNat < 256 := by omega
  simp [List.range, List.range.loop, Nat.mod_eq_of_lt this]

theorem to_bytes_le_two {v : Int} (h0 : 0 ≤ v) (h : v < 65536) :
    to_bytes_le 2 v = .ok [v.toNat % 256, v.toNat / 256] := by
  unfold to_bytes_le
  rw [if_pos ⟨h0, by norm_num; omega⟩]
  have h1 : v.toNat / 256 < 256 := by omega
  simp [List.range, List.range.loop, Nat.mod_eq_of_lt h1]

theorem file_chunk_length (padding : Nat) (fc : FileContent) :
    (file_chunk padding fc).length = padded_size padding fc := by
  simp [file_chunk, padded_size]

theorem write_files_loop_buf (config : Config) :
    ∀ (l : List FileContent) (buf : List Nat),
      (write_files_loop config l buf).2 = buf ++ l.flatMap (file_chunk config.padding_size) := by
  intro l
  induction l with
  | nil => intro buf; simp [write_files_loop]
  | cons fc rest ih =>
    intro buf
    simp only [write_files_loop, List.flatMap_cons]
    rw [ih]
    simp [file_chunk, List.append_assoc]

theorem flatMap_file_chunk_length (padding : Nat) (l : List FileContent) :
    (l.flatMap (file_chunk padding)).length = used_size padding l := by
  simp only [List.length_flatMap, used_size]
  congr 1
  apply List.map_congr_left
  intro fc _
  simp [Function.comp, file_chunk_length]

theorem write_files_loop_files (config : Config) :
    ∀ (l : List FileContent) (buf : List Nat),
      (write_files_loop config l buf).1.map (fun fc => (fc.filename, fc.content)) =
        l.map (fun fc => (fc.filename, fc.content)) := by
  intro l
  induction l with
  | nil => intro buf; simp [write_files_loop]
  | cons fc rest ih =>
    intro buf
    simp only [write_files_loop, List.map_cons]
    rw [ih]

theorem write_files_loop_length (config : Config) (l : List FileContent) (buf : List Nat) :
    (write_files_loop config l buf).1.length = l.length := by
  have := congrArg List.length (write_files_loop_files config l buf)
  simpa using this

theorem write_files_loop_sectors (config : Config) :
    ∀ (l : List FileContent) (buf : List Nat),
      ∀ fc ∈ (write_files_loop config l buf).1,
        ∃ k : Nat, fc.starting_sector = ((k / config.sector_size : Nat) : Int) ∧
          buf.length ≤ k ∧ k ≤ (write_files_loop config l buf).2.length := by
  intro l
  induction l with
  | nil => intro buf fc h; simp [write_files_loop] at h
  | cons f rest ih =>
    intro buf fc h
    simp only [write_files_loop] at h ⊢
    rcases List.mem_cons.mp h with rfl | h
    · refine ⟨buf.length, rfl, le_refl _, ?_⟩
      rw [write_files_loop_buf]
      simp
    · obtain ⟨k, hk, hk1, hk2⟩ := ih _ fc h
      refine ⟨k, hk, ?_, hk2⟩
      calc buf.length ≤ (buf ++ f.content ++
          List.replicate (config.padding_size - f.content.length % config.padding_size) 0).length := by
            simp
        _ ≤ k := hk1

theorem move_smallest_spec (config : Config) (contents : List FileContent)
    (h : contents ≠ []) :
    (move_smallest_file_to_back config contents).2 < contents.length ∧
    (move_smallest_file_to_back config contents).1 =
      list_swap contents (contents.length - 1)
        (move_smallest_file_to_back config contents).2 ∧
    (∀ j < contents.length,
      waste_score config.padding_size
          (contents.getD (move_smallest_file_to_back config contents).2 default).content ≤
        waste_score config.padding_size (contents.getD j default).content) ∧
    (∀ j < (move_smallest_file_to_back config contents).2,
      waste_score config.padding_size (contents.getD j default).content ≠
        waste_score config.padding_size
          (contents.getD (move_smallest_file_to_back config contents).2 default).content) := by
  rcases hE : (List.range contents.length).map
      (fun i => (waste_score config.padding_size (contents.getD i default).content, i)) with
    _ | ⟨s, ss⟩
  · exfalso
    have := congrArg List.length hE
    simp at this
    exact h this
  · have hmove : move_smallest_file_to_back config contents =
        (list_swap contents (contents.length - 1) (py_min_fold s ss).2, (py_min_fold s ss).2) := by
      unfold move_smallest_file_to_back
      rw [hE]
    have hmem : py_min_fold s ss ∈ (List.range contents.length).map
        (fun i => (waste_score config.padding_size (contents.getD i default).content, i)) := by
      rw [hE]
      rcases py_min_fold_mem ss s with h1 | h1
      · rw [h1]; exact List.mem_cons_self s ss
      · exact List.mem_cons_of_mem s h1
    obtain ⟨i, hi, hfi⟩ := List.mem_map.mp hmem
    have hiN : i < contents.length := List.mem_range.mp hi
    have him2 : (py_min_fold s ss).2 = i := by rw [← hfi]
    have him1 : (py_min_fold s ss).1 =
        waste_score config.padding_size (contents.getD i default).content := by rw [← hfi]
    have hall : ∀ j < contents.length,
        pair_le (py_min_fold s ss)
          (waste_score config.padding_size (contents.getD j default).content, j) := by
      intro j hj
      have hq : (waste_score config.padding_size (contents.getD j default).content, j) ∈
          (List.range contents.length).map
            (fun i => (waste_score config.padding_size (contents.getD i default).content, i)) :=
        List.mem_map.mpr ⟨j, List.mem_range.mpr hj, rfl⟩
      rw [hE] at hq
      rcases List.mem_cons.mp hq with heq | hq
      · rw [heq]; exact (py_min_fold_le ss s).1
      · exact (py_min_fold_le ss s).2 _ hq
    rw [hmove]
    refine ⟨him2 ▸ hiN, rfl, ?_, ?_⟩
    · intro j hj
      have := hall j hj
      unfold pair_le at this
      rw [him1] at this
      simp only [him2]
      rcases this with h1 | ⟨h1, _⟩
      · exact le_of_lt h1
      · exact le_of_eq h1
    · intro j hj
      simp only [him2] at hj ⊢
      have := hall j (lt_trans hj hiN)
      unfold pair_le at this
      rw [him1, him2] at this
      intro heq
      rcases this with h1 | ⟨h1, h2⟩
      · rw [heq] at h1; exact lt_irrefl _ h1
      · omega

theorem resolve_name_ok {p n : List Char} (h : resolve_name p = .ok n) :
    n = basename p ∧ (splitext n).1.length ≤ 8 ∧ (splitext n).2.length ≤ 4 ∧
    ∀ c ∈ n, c.toNat < 128 := by
  simp only [resolve_name] at h
  split_ifs at h with h1 h2 h3
  cases h
  refine ⟨rfl, by omega, by omega, ?_⟩
  intro c hc
  simpa using List.all_eq_true.mp h3 c hc

theorem resolve_name_error {p : List Char} {e : Err} (h : resolve_name p = .error e) :
    e = .nameTooLong ∨ e = .nonAsciiName := by
  simp only [resolve_name] at h
  split_ifs at h <;> cases h
  · left; rfl
  · left; rfl
  · right; rfl

theorem splitext_stem_sublist (p : List Char) : (splitext p).1.Sublist p := by
  unfold splitext
  cases rfind '.' p with
  | none => exact List.Sublist.refl p
  | some d =>
    simp only
    split_ifs
    · exact List.take_sublist d p
    · exact List.Sublist.refl p
    · exact List.Sublist.refl p

theorem splitext_ext_sublist (p : List Char) : (splitext p).2.Sublist p := by
  unfold splitext
  cases rfind '.' p with
  | none => exact List.nil_sublist p
  | some d =>
    simp only
    split_ifs
    · exact List.drop_sublist d p
    · exact List.nil_sublist p
    · exact List.nil_sublist p

theorem rfind_aux (c : Char) (s : List Char) :
    ∀ k : Nat,
      ((List.range k).foldl (fun acc i => if s.getD i ' ' = c then some i else acc) none = none ∧
        ∀ j < k, s.getD j ' ' ≠ c) ∨
      (∃ d, (List.range k).foldl (fun acc i => if s.getD i ' ' = c then some i else acc) none = some d ∧
        d < k ∧ s.getD d ' ' = c ∧ ∀ j, d < j → j < k → s.getD j ' ' ≠ c) := by
  intro k
  induction k with
  | zero => left; exact ⟨rfl, by omega⟩
  | succ k ih =>
    rw [List.range_succ, List.foldl_append]
    simp only [List.foldl_cons, List.foldl_nil]
    by_cases hk : s.getD k ' ' = c
    · right
      refine ⟨k, ?_, by omega, hk, by omega⟩
      rcases ih with ⟨h1, _⟩ | ⟨d, h1, _, _, _⟩ <;> rw [h1, if_pos hk]
    · rcases ih with ⟨h1, h2⟩ | ⟨d, h1, hd1, hd2, hd3⟩
      · left
        rw [h1, if_neg hk]
        refine ⟨rfl, ?_⟩
        intro j hj
        rcases Nat.lt_succ_iff_lt_or_eq.mp hj with hj | rfl
        · exact h2 j hj
        · exact hk
      · right
        refine ⟨d, ?_, by omega, hd2, ?_⟩
        · rw [h1, if_neg hk]
        · intro j hj1 hj2
          rcases Nat.lt_succ_iff_lt_or_eq.mp hj2 with hj2 | rfl
          · exact hd3 j hj1 hj2
          · exact hk

theorem rfind_none_iff (c : Char) (s : List Char) :
    rfind c s = none ↔ ∀ j < s.length, s.getD j ' ' ≠ c := by
  unfold rfind
  rcases rfind_aux c s s.length with ⟨h1, h2⟩ | ⟨d, h1, hd1, hd2, _⟩
  · rw [h1]
    exact ⟨fun _ => h2, fun _ => rfl⟩
  · rw [h1]
    constructor
    · intro h; cases h
    · intro h; exact absurd hd2 (h d hd1)

theorem rfind_some {c : Char} {s : List Char} {d : Nat} (h : rfind c s = some d) :
    d < s.length ∧ s.getD d ' ' = c ∧ ∀ j, d < j → j < s.length → s.getD j ' ' ≠ c := by
  unfold rfind at h
  rcases rfind_aux c s s.length with ⟨h1, _⟩ | ⟨d', h1, hd1, hd2, hd3⟩
  · rw [h1] at h; cases h
  · rw [h1] at h
    cases h
    exact ⟨hd1, hd2, hd3⟩

theorem rfind_eq_some {c : Char} {s : List Char} {d : Nat}
    (hd : d < s.length) (hc : s.getD d ' ' = c)
    (hlast : ∀ j, d < j → j < s.length → s.getD j ' ' ≠ c) : rfind c s = some d := by
  unfold rfind
  rcases rfind_aux c s s.length with ⟨_, h2⟩ | ⟨d', h1, hd1, hd2, hd3⟩
  · exact absurd hc (h2 d hd)
  · rw [h1]
    congr 1
    rcases Nat.lt_trichotomy d d' with h | h | h
    · exact absurd hd2 (hlast d' h hd1)
    · omega
    · exact absurd hc (hd3 d h hd)

theorem validate_files_ok {cfg : Config} {files : List (List Char × List Nat)}
    {contents : List FileContent} (h : validate_files cfg files = .ok contents) :
    files.length ≤ cfg.max_number_of_files ∧ contents.length = files.length ∧
    ∀ fc ∈ contents, ∃ p ∈ files,
      resolve_name p.1 = .ok fc.filename ∧ fc.content = p.2 ∧ fc.starting_sector = -1 := by
  unfold validate_files at h
  split_ifs at h with h1 h2
  refine ⟨by omega, except_map_list_ok_length h, ?_⟩
  intro fc hfc
  obtain ⟨p, hp, hfp⟩ := except_map_list_ok_forall h fc hfc
  refine ⟨p, hp, ?_⟩
  cases hr : resolve_name p.1 with
  | error e => rw [hr] at hfp; cases hfp
  | ok rn =>
    rw [hr] at hfp
    cases hfp
    exact ⟨rfl, rfl, rfl⟩

theorem validate_files_error_dup_iff (cfg : Config) (files : List (List Char × List Nat)) :
    validate_files cfg files = .error .duplicateName ↔
      files.length ≤ cfg.max_number_of_files ∧ ¬ (files.map Prod.fst).Nodup := by
  unfold validate_files
  split_ifs with h1 h2
  · constructor
    · intro h; simp at h
    · intro h; omega
  · cases heml : except_map_list
        (fun p =>
          match resolve_name p.1 with
          | .error e => Except.error e
          | .ok rn => Except.ok (⟨rn, p.2, -1⟩ : FileContent))
        files with
    | error e =>
      obtain ⟨x, _, hx⟩ := except_map_list_error heml
      have he : e = .nameTooLong ∨ e = .nonAsciiName := by
        cases hr : resolve_name x.1 with
        | error e0 =>
          rw [hr] at hx
          cases hx
          exact resolve_name_error hr
        | ok rn => rw [hr] at hx; cases hx
      constructor
      · intro hh
        rcases he with rfl | rfl <;> cases hh
      · intro ⟨_, hnd⟩; exact absurd h2 hnd
    | ok r =>
      constructor
      · intro hh; cases hh
      · intro ⟨_, hnd⟩; exact absurd h2 hnd
  · constructor
    · intro _; exact ⟨by omega, h2⟩
    · intro _; rfl

theorem create_directory_entry_error {cfg : Config} {fc : FileContent} {e : Err}
    (h : create_directory_entry cfg fc = .error e) : e = .internalAssert := by
  simp only [create_directory_entry] at h
  split_ifs at h with h1 h2 h3
  · cases htb1 : to_bytes_le 1 ((fc.content.length / cfg.cluster_size : Nat) : Int) with
    | error e1 =>
      rw [htb1] at h
      cases h
      exact to_bytes_le_error htb1
    | ok nc =>
      rw [htb1] at h
      cases htb2 : to_bytes_le 2 fc.starting_sector with
      | error e2 =>
        rw [htb2] at h
        cases h
        exact to_bytes_le_error htb2
      | ok sb =>
        rw [htb2] at h
        cases htb3 : to_bytes_le 1
            (((fc.content.length % cfg.cluster_size + 127) / 128 : Nat) : Int) with
        | error e3 =>
          rw [htb3] at h
          cases h
          exact to_bytes_le_error htb3
        | ok nr =>
          rw [htb3] at h
          cases h
  · cases h; rfl
  · cases h; rfl
  · cases h; rfl

theorem create_directory_entry_ok_length {cfg : Config} {fc : FileContent} {r : List Nat}
    (h : create_directory_entry cfg fc = .ok r)
    (hstem : (splitext fc.filename).1.length ≤ cfg.max_stem_size)
    (hext : (splitext fc.filename).2.length ≤ cfg.max_extension_size + 1) :
    r.length = 5 + cfg.max_stem_size + cfg.max_extension_size := by
  simp only [create_directory_entry] at h
  split_ifs at h with h1 h2 h3
  · have hne : (splitext fc.filename).2 ≠ [] := by
      intro hnil
      rw [hnil] at h1
      simp at h1
    have hextlen : ((splitext fc.filename).2.drop 1).length =
        (splitext fc.filename).2.length - 1 := by simp
    cases htb1 : to_bytes_le 1 ((fc.content.length / cfg.cluster_size : Nat) : Int) with
    | error e1 => rw [htb1] at h; cases h
    | ok nc =>
      rw [htb1] at h
      cases htb2 : to_bytes_le 2 fc.starting_sector with
      | error e2 => rw [htb2] at h; cases h
      | ok sb =>
        rw [htb2] at h
        cases htb3 : to_bytes_le 1
            (((fc.content.length % cfg.cluster_size + 127) / 128 : Nat) : Int) with
        | error e3 => rw [htb3] at h; cases h
        | ok nr =>
          rw [htb3] at h
          cases h
          have l1 := to_bytes_le_ok_length htb1
          have l2 := to_bytes_le_ok_length htb2
          have l3 := to_bytes_le_ok_length htb3
          have hcons : (splitext fc.filename).2.length ≠ 0 := by
            intro hz
            exact hne (List.length_eq_zero.mp hz)
          simp only [List.length_set, List.length_append, List.length_map,
            List.length_replicate, List.length_cons, List.length_nil, hextlen, l1, l2, l3]
          omega

theorem get_config_cases {modus : String} {cfg : Config}
    (h : get_config modus = .ok cfg) :
    (modus = "M048" ∧ cfg = config_M048) ∨ (modus = "M049" ∧ cfg = config_M049) := by
  unfold get_config at h
  split_ifs at h with h1 h2
  · cases h; exact Or.inl ⟨h1, rfl⟩
  · cases h; exact Or.inr ⟨h2, rfl⟩

theorem write_files_with_padding_error {cfg : Config} {l : List FileContent} {e : Err}
    (h : write_files_with_padding cfg l = .error e) : e = .imageOverflow := by
  simp only [write_files_with_padding] at h
  split_ifs at h
  cases h
  rfl

theorem write_files_with_padding_ok {cfg : Config} {l nc : List FileContent} {buf : List Nat}
    (h : write_files_with_padding cfg l = .ok (nc, buf)) :
    nc = (write_files_loop cfg l []).1 ∧ buf = (write_files_loop cfg l []).2 ∧
    buf.length ≤ cfg.final_file_size := by
  simp only [write_files_with_padding] at h
  split_ifs at h with h1
  simp only [Except.ok.injEq] at h
  refine ⟨by rw [h], by rw [h], ?_⟩
  rw [h] at h1
  simp only [not_lt] at h1
  exact h1

theorem write_files_with_padding_ok_exists {cfg : Config} {l : List FileContent}
    (h : (write_files_loop cfg l []).2.length ≤ cfg.final_file_size) :
    write_files_with_padding cfg l = .ok (write_files_loop cfg l []) := by
  simp only [write_files_with_padding]
  rw [if_neg (by omega)]

theorem pad_error {cfg : Config} {contents : List FileContent} {buf : List Nat} {e : Err}
    (h : pad_file_until_directory_with_dummy_rom cfg contents buf = .error e) :
    e = .directoryDoesNotFit ∨ e = .noSlotForFiller := by
  simp only [pad_file_until_directory_with_dummy_rom] at h
  split_ifs at h
  · cases h; left; rfl
  · cases h; right; rfl

theorem pad_ok_spec {cfg : Config} {contents : List FileContent} {buf : List Nat}
    {c2 : List FileContent} {b2 : List Nat} {fr : Nat}
    (h : pad_file_until_directory_with_dummy_rom cfg contents buf = .ok (c2, b2, fr))
    (hle : buf.length ≤ cfg.final_file_size)
    (hsn : cfg.max_number_of_files * cfg.directory_entry_size ≤ cfg.final_file_size) :
    b2.length = cfg.final_file_size - cfg.max_number_of_files * cfg.directory_entry_size ∧
    ((c2 = contents ∧ buf.length = cfg.final_file_size) ∨
     (buf.length ≠ cfg.final_file_size ∧ contents.length ≠ cfg.max_number_of_files ∧
      c2 = contents ++ [⟨"DUMMY.ROM".data,
        List.replicate (cfg.final_file_size - buf.length) 229,
        ((buf.length / cfg.sector_size : Nat) : Int)⟩])) := by
  simp only [pad_file_until_directory_with_dummy_rom] at h
  split_ifs at h with h1 h2 h3 h4 h5 <;>
    simp only [Except.ok.injEq, Prod.mk.injEq] at h <;>
    obtain ⟨rfl, rfl, rfl⟩ := h
  · exact ⟨by simp only [List.length_take]; omega, Or.inl ⟨rfl, h1⟩⟩
  · exact ⟨by simp only [List.length_take]; omega, Or.inl ⟨rfl, h1⟩⟩
  · refine ⟨?_, Or.inr ⟨h1, h4, rfl⟩⟩
    simp only [List.length_take, List.length_append, List.length_replicate]
    omega
  · refine ⟨?_, Or.inr ⟨h1, h4, rfl⟩⟩
    simp only [List.length_take, List.length_append, List.length_replicate]
    omega

theorem write_directory_ok_spec {cfg : Config} {contents : List FileContent}
    {buf : List Nat} {sw : Nat} {img : List Nat} {cts : List FileContent} {fr : Nat}
    (h : write_directory cfg contents buf sw = .ok (img, cts, fr)) :
    ∃ b2 entries,
      pad_file_until_directory_with_dummy_rom cfg contents buf = .ok (cts, b2, fr) ∧
      except_map_list (create_directory_entry cfg) cts = .ok entries ∧
      img = b2 ++ (list_swap entries (entries.length - 1) sw).flatten ++
        List.replicate ((cfg.max_number_of_files - cts.length) * 16) 229 := by
  unfold write_directory at h
  cases hp : pad_file_until_directory_with_dummy_rom cfg contents buf with
  | error e => rw [hp] at h; cases h
  | ok pr =>
    rw [hp] at h
    dsimp only at h
    cases heml : except_map_list (create_directory_entry cfg) pr.1 with
    | error e => rw [heml] at h; cases h
    | ok entries =>
      rw [heml] at h
      dsimp only at h
      simp only [Except.ok.injEq, Prod.mk.injEq] at h
      obtain ⟨rfl, rfl, rfl⟩ := h
      exact ⟨pr.2.1, entries, by rw [← hp], heml, rfl⟩

theorem write_directory_error {cfg : Config} {contents : List FileContent}
    {buf : List Nat} {sw : Nat} {e : Err}
    (h : write_directory cfg contents buf sw = .error e) :
    e = .directoryDoesNotFit ∨ e = .noSlotForFiller ∨ e = .internalAssert := by
  unfold write_directory at h
  cases hp : pad_file_until_directory_with_dummy_rom cfg contents buf with
  | error e0 =>
    rw [hp] at h
    cases h
    rcases pad_error hp with h1 | h1
    · exact Or.inl h1
    · exact Or.inr (Or.inl h1)
  | ok pr =>
    rw [hp] at h
    dsimp only at h
    cases heml : except_map_list (create_directory_entry cfg) pr.1 with
    | error e0 =>
      rw [heml] at h
      cases h
      obtain ⟨x, _, hx⟩ := except_map_list_error heml
      exact Or.inr (Or.inr (create_directory_entry_error hx))
    | ok entries =>
      rw [heml] at h
      dsimp only at h
      cases h

theorem build_eq {modus : String} {files : List (List Char × List Nat)}
    {cfg : Config} {contents : List FileContent}
    (hne : files.length ≠ 0) (hgc : get_config modus = .ok cfg)
    (hv : validate_files cfg files = .ok contents) :
    build modus files =
      match write_files_with_padding cfg (move_smallest_file_to_back cfg contents).1 with
      | .error e => .error e
      | .ok wr =>
        write_directory cfg wr.1 wr.2 (move_smallest_file_to_back cfg contents).2 := by
  unfold build
  rw [if_neg hne, hgc]
  dsimp only
  rw [hv]

theorem flatten_length_of_all {l : List (List Nat)} {n : Nat}
    (h : ∀ e ∈ l, e.length = n) : l.flatten.length = n * l.length := by
  induction l with
  | nil => simp
  | cons x xs ih =>
    simp only [List.flatten_cons, List.length_append, List.length_cons]
    rw [h x (List.mem_cons_self x xs), ih (fun e he => h e (List.mem_cons_of_mem x he))]
    ring

theorem content_le_used {p : Nat} {fc : FileContent} {l : List FileContent}
    (h : fc ∈ l) : fc.content.length ≤ used_size p l := by
  have h1 : padded_size p fc ≤ used_size p l :=
    List.single_le_sum (fun x _ => Nat.zero_le x) _ (List.mem_map_of_mem _ h)
  unfold padded_size at h1
  omega

theorem getD_set_self {l : List Nat} {n a d : Nat} (h : n < l.length) :
    (l.set n a).getD n d = a := by
  rw [List.getD_eq_getElem _ _ (by simpa using h), List.getElem_set, if_pos rfl]

theorem getD_set_other {l : List Nat} {m n a d : Nat} (h : m ≠ n) :
    (l.set m a).getD n d = l.getD n d := by
  by_cases hn : n < l.length
  · rw [List.getD_eq_getElem _ _ (by simpa using hn), List.getD_eq_getElem _ _ hn,
      List.getElem_set, if_neg h]
  · rw [List.getD_eq_default _ _ (by simpa using Nat.le_of_not_lt hn),
      List.getD_eq_default _ _ (Nat.le_of_not_lt hn)]

theorem get_bit_set_bit_self (v : Nat) : get_bit (set_bit v 7) 7 = 1 := by
  unfold get_bit set_bit
  rw [if_pos]
  have h1 : (1 : Nat) <<< 7 = 2 ^ 7 := by rw [Nat.shiftLeft_eq, one_mul]
  have h2 : (v ||| 2 ^ 7).testBit 7 = true := by
    rw [Nat.testBit_or, Nat.testBit_two_pow_self]
    simp
  rw [h1, Nat.and_two_pow, h2]
  norm_num

theorem get_bit_of_lt {v : Nat} (h : v < 128) : get_bit v 7 = 0 := by
  unfold get_bit
  rw [if_neg]
  simp only [ne_eq, not_not]
  have : v.testBit 7 = false := Nat.testBit_lt_two_pow (by omega)
  calc v &&& 1 <<< 7 = v &&& 2 ^ 7 := by rw [Nat.shiftLeft_eq, one_mul]
    _ = (v.testBit 7).toNat * 2 ^ 7 := Nat.and_two_pow v 7
    _ = 0 := by rw [this]; rfl

/-! ### Claim theorems -/

/-- C6: for every non-empty entry list, `move_smallest_file_to_back`
scores each entry with `max(0, len(content) - 1) mod paddingBlockSize`,
selects the entry with the minimum score (ties resolved in favour of the
first entry in scan order), moves it to the last write position by
swapping it with the entry currently last, and returns that entry's
original index as the swapped index. -/
theorem claim_C6_move_smallest (modus : String) (cfg : Config)
    (contents : List FileContent)
    (hgc : get_config modus = .ok cfg) (hne : contents ≠ []) :
    ∃ i,
      move_smallest_file_to_back cfg contents =
        (list_swap contents (contents.length - 1) i, i) ∧
      i < contents.length ∧
      (∀ j < contents.length,
        waste_score cfg.padding_size (contents.getD i default).content ≤
          waste_score cfg.padding_size (contents.getD j default).content) ∧
      (∀ j < i,
        waste_score cfg.padding_size (contents.getD j default).content ≠
          waste_score cfg.padding_size (contents.getD i default).content) := by
  obtain ⟨h1, h2, h3, h4⟩ := move_smallest_spec cfg contents hne
  refine ⟨(move_smallest_file_to_back cfg contents).2, ?_, h1, h3, h4⟩
  rw [← h2]

/-- C6 witness: a concrete two-entry `M048` instance of the theorem. -/
theorem claim_C6_move_smallest_witness :
    get_config "M048" = .ok config_M048 ∧
    ([⟨"A.X".data, List.replicate 5 0, -1⟩, ⟨"B.X".data, [], -1⟩] :
      List FileContent) ≠ [] ∧
    ∃ i,
      move_smallest_file_to_back config_M048
          [⟨"A.X".data, List.replicate 5 0, -1⟩, ⟨"B.X".data, [], -1⟩] =
        (list_swap [⟨"A.X".data, List.replicate 5 0, -1⟩, ⟨"B.X".data, [], -1⟩] (2 - 1) i, i) ∧
      i < 2 ∧
      (∀ j < 2,
        waste_score config_M048.padding_size
            (([⟨"A.X".data, List.replicate 5 0, -1⟩, ⟨"B.X".data, [], -1⟩] :
              List FileContent).getD i default).content ≤
          waste_score config_M048.padding_size
            (([⟨"A.X".data, List.replicate 5 0, -1⟩, ⟨"B.X".data, [], -1⟩] :
              List FileContent).getD j default).content) ∧
      (∀ j < i,
        waste_score config_M048.padding_size
            (([⟨"A.X".data, List.replicate 5 0, -1⟩, ⟨"B.X".data, [], -1⟩] :
              List FileContent).getD j default).content ≠
          waste_score config_M048.padding_size
            (([⟨"A.X".data, List.replicate 5 0, -1⟩, ⟨"B.X".data, [], -1⟩] :
              List FileContent).getD i default).content) :=
  ⟨rfl, by decide,
    claim_C6_move_smallest "M048" config_M048
      [⟨"A.X".data, List.replicate 5 0, -1⟩, ⟨"B.X".data, [], -1⟩] rfl (by decide)⟩

/-- C7: every successful run of the image writer produces exactly, for
each file in order, the raw content followed by `0x00` padding up to the
next `paddingBlockSize` boundary, and a file whose content length is an
exact multiple of `paddingBlockSize` (including an empty file) receives
a full extra block of `paddingBlockSize` zero bytes rather than none. -/
theorem claim_C7_write_padding (modus : String) (cfg : Config)
    (contents nc : List FileContent) (buf : List Nat)
    (hgc : get_config modus = .ok cfg)
    (hw : write_files_with_padding cfg contents = .ok (nc, buf)) :
    buf = contents.flatMap (file_chunk cfg.padding_size) ∧
    ∀ fc ∈ contents, fc.content.length % cfg.padding_size = 0 →
      file_chunk cfg.padding_size fc =
        fc.content ++ List.replicate cfg.padding_size 0 := by
  obtain ⟨_, hbuf, _⟩ := write_files_with_padding_ok hw
  constructor
  · rw [hbuf, write_files_loop_buf]
    simp
  · intro fc _ hz
    unfold file_chunk
    rw [hz, Nat.sub_zero]

/-- C7 witness: an `M048` run on a single empty file — the writer emits
a full 4096-byte zero block for it. -/
theorem claim_C7_write_padding_witness :
    get_config "M048" = .ok config_M048 ∧
    write_files_with_padding config_M048 [⟨"A.X".data, [], -1⟩] =
      .ok ([⟨"A.X".data, [], 0⟩], List.replicate 4096 0) ∧
    (List.replicate 4096 (0 : Nat) =
      ([⟨"A.X".data, [], -1⟩] : List FileContent).flatMap
        (file_chunk config_M048.padding_size) ∧
     ∀ fc ∈ ([⟨"A.X".data, [], -1⟩] : List FileContent),
        fc.content.length % config_M048.padding_size = 0 →
        file_chunk config_M048.padding_size fc =
          fc.content ++ List.replicate config_M048.padding_size 0) := by
  have hw : write_files_with_padding config_M048 [⟨"A.X".data, [], -1⟩] =
      .ok ([⟨"A.X".data, [], 0⟩], List.replicate 4096 0) := by
    simp only [write_files_with_padding, write_files_loop, config_M048,
      List.length_nil, List.nil_append, List.length_replicate]
    norm_num
  exact ⟨rfl, hw,
    claim_C7_write_padding "M048" config_M048 [⟨"A.X".data, [], -1⟩]
      [⟨"A.X".data, [], 0⟩] (List.replicate 4096 0) rfl hw⟩

theorem basename_no_slash (p : List Char) : ∀ c ∈ basename p, c ≠ '/' := by
  intro c hc
  unfold basename at hc
  have h1 := List.mem_reverse.mp hc
  have h2 := List.mem_takeWhile_imp h1
  simpa using h2

theorem splitext_no_slash (p : List Char) (hns : ∀ c ∈ p, c ≠ '/') :
    splitext p =
      match rfind '.' p with
      | none => (p, [])
      | some d =>
        if (p.take d).any (fun c => c ≠ '.') then (p.take d, p.drop d)
        else (p, []) := by
  have hsep : rfind '/' p = none := by
    rw [rfind_none_iff]
    intro j hj
    by_cases hlt : j < p.length
    · rw [List.getD_eq_getElem _ _ hlt]
      exact hns _ (List.getElem_mem hlt)
    · omega
  unfold splitext
  cases rfind '.' p with
  | none => rfl
  | some d =>
    rw [hsep]
    simp only
    rw [if_pos (by omega)]
    norm_num

/-- C8 counterexample: the display name `.data` resolves successfully
(Python `splitext` treats the leading dot as part of the stem), although
splitting on the last dot as the claim states would give the
4-character extension `data` and demand a `NameTooLong` failure. -/
theorem claim_C8_counterexample :
    resolve_name ".data".data = .ok ".data".data ∧
    spec_split_last_dot ".data".data = ([], "data".data) ∧
    3 < ("data".data).length := by decide

/-- C8 (amended): `resolve_name` splits the basename with the Python
`splitext` rule — the extension starts at the last dot only when a
non-dot character precedes that dot, so a name whose only leading
characters are dots (`.data`) has an empty extension and the whole name
as stem.  With that split, `NameTooLong` is returned exactly when the
stem exceeds 8 or the dot-less extension exceeds 3 characters, and
(only) otherwise `NonAsciiName` exactly when some character is outside
7-bit ASCII; otherwise the basename is returned unchanged. -/
theorem claim_C8_resolve_name (p : List Char) :
    (resolve_name p = .error .nameTooLong ↔
      8 < (splitext (basename p)).1.length ∨
      3 < ((splitext (basename p)).2.drop 1).length) ∧
    (resolve_name p = .error .nonAsciiName ↔
      (splitext (basename p)).1.length ≤ 8 ∧
      ((splitext (basename p)).2.drop 1).length ≤ 3 ∧
      ¬ ∀ c ∈ basename p, c.toNat < 128) ∧
    (resolve_name p = .ok (basename p) ↔
      (splitext (basename p)).1.length ≤ 8 ∧
      ((splitext (basename p)).2.drop 1).length ≤ 3 ∧
      ∀ c ∈ basename p, c.toNat < 128) ∧
    (splitext (basename p) =
      match rfind '.' (basename p) with
      | none => (basename p, [])
      | some d =>
        if ((basename p).take d).any (fun c => c ≠ '.') then
          ((basename p).take d, (basename p).drop d)
        else (basename p, [])) ∧
    (∀ d, rfind '.' (basename p) = some d →
      d < (basename p).length ∧ (basename p).getD d ' ' = '.' ∧
      ∀ j, d < j → j < (basename p).length → (basename p).getD j ' ' ≠ '.') := by
  have hdrop : ((splitext (basename p)).2.drop 1).length =
      (splitext (basename p)).2.length - 1 := by simp
  have hall : ((basename p).all fun c => decide (c.toNat < 128)) = true ↔
      ∀ c ∈ basename p, c.toNat < 128 := by
    rw [List.all_eq_true]
    constructor
    · intro h c hc; simpa using h c hc
    · intro h c hc; simpa using h c hc
  refine ⟨?_, ?_, ?_, splitext_no_slash _ (basename_no_slash p),
    fun d hd => rfind_some hd⟩
  · simp only [resolve_name, hdrop]
    split_ifs with c1 c2 c3
    · constructor
      · intro _; omega
      · intro _; rfl
    · constructor
      · intro _; omega
      · intro _; rfl
    · constructor
      · intro h; exact absurd h (by simp)
      · intro h; exfalso; omega
    · constructor
      · intro h; exact absurd h (by simp)
      · intro h; exfalso; omega
  · simp only [resolve_name, hdrop]
    split_ifs with c1 c2 c3
    · constructor
      · intro h; exact absurd h (by simp)
      · intro h; exfalso; omega
    · constructor
      · intro h; exact absurd h (by simp)
      · intro h; exfalso; omega
    · constructor
      · intro h; exact absurd h (by simp)
      · intro ⟨_, _, hcontra⟩
        exact absurd (hall.mp c3) hcontra
    · constructor
      · intro _
        exact ⟨by omega, by omega, fun hcontra => c3 (hall.mpr hcontra)⟩
      · intro _; rfl
  · simp only [resolve_name, hdrop]
    split_ifs with c1 c2 c3
    · constructor
      · intro h; exact absurd h (by simp)
      · intro h; exfalso; omega
    · constructor
      · intro h; exact absurd h (by simp)
      · intro h; exfalso; omega
    · constructor
      · intro _
        exact ⟨by omega, by omega, hall.mp c3⟩
      · intro _; rfl
    · constructor
      · intro h; exact absurd h (by simp)
      · intro ⟨_, _, hcontra⟩
        exact absurd (hall.mpr hcontra) c3

/-- C8 witness: the theorem instantiated at `dir/PROG.ROM`, whose
basename resolves successfully. -/
theorem claim_C8_resolve_name_witness :
    resolve_name "dir/PROG.ROM".data = .ok "PROG.ROM".data :=
  ((claim_C8_resolve_name "dir/PROG.ROM".data).2.2.1).mpr (by decide)

/-- C3 counterexample: a file whose resolved name has no dot (empty
extension, which the claim's premise admits) makes `create_directory_entry`
fail its internal `extension[0] == "."` assertion instead of returning a
16-byte record. -/
theorem claim_C3_counterexample :
    (splitext "ABC".data).1.length ≤ 8 ∧ (splitext "ABC".data).2 = [] ∧
    create_directory_entry config_M048 ⟨"ABC".data, [], 0⟩ = .error .internalAssert := by
  decide

/-- C3 (amended): for every file whose resolved name *splits with a
dot-prefixed extension* (a dot-less name aborts on an internal
assertion), with ASCII stem of at most 8 and ASCII extension of at most
3 characters, a recorded starting sector below 2^16 and fewer than 256
full clusters of content, `create_directory_entry` returns exactly 16
bytes: byte 0 is `0x01`; bytes 1-11 are the stem and extension
left-justified and `0x20`-padded to widths 8 and 3, with bit 7 forced to
1 at entry indices 2, 8 and 9 and clear everywhere else in the name
field; byte 12 is `contentLen / clusterSize`; bytes 13-14 are the
starting sector as unsigned 16-bit little-endian; byte 15 is
`ceil((contentLen mod clusterSize) / 128)`. -/
theorem claim_C3_entry_layout (modus : String) (cfg : Config) (fc : FileContent)
    (stem ext : List Char)
    (hgc : get_config modus = .ok cfg)
    (hsplit : splitext fc.filename = (stem, '.' :: ext))
    (hstem : stem.length ≤ 8) (hext : ext.length ≤ 3)
    (hsa : ∀ c ∈ stem, c.toNat < 128) (hea : ∀ c ∈ ext, c.toNat < 128)
    (hs0 : 0 ≤ fc.starting_sector) (hs1 : fc.starting_sector < 65536)
    (hcl : fc.content.length / cfg.cluster_size < 256) :
    ∃ E, create_directory_entry cfg fc = .ok E ∧
      E.length = 16 ∧
      E.getD 0 0 = 1 ∧
      (∀ i < 11, E.getD (i + 1) 0 =
        (if i + 1 = 2 ∨ i + 1 = 8 ∨ i + 1 = 9 then
          set_bit ((stem.map Char.toNat ++ List.replicate (8 - stem.length) 32 ++
            ext.map Char.toNat ++ List.replicate (3 - ext.length) 32).getD i 0) 7
        else
          (stem.map Char.toNat ++ List.replicate (8 - stem.length) 32 ++
            ext.map Char.toNat ++ List.replicate (3 - ext.length) 32).getD i 0)) ∧
      E.getD 12 0 = fc.content.length / cfg.cluster_size ∧
      E.getD 13 0 = fc.starting_sector.toNat % 256 ∧
      E.getD 14 0 = fc.starting_sector.toNat / 256 ∧
      E.getD 15 0 = (fc.content.length % cfg.cluster_size + 127) / 128 ∧
      (∀ i, 1 ≤ i → i ≤ 11 →
        get_bit (E.getD i 0) 7 = (if i = 2 ∨ i = 8 ∨ i = 9 then 1 else 0)) := by
  obtain ⟨hmss, hmes, hclu⟩ :
      cfg.max_stem_size = 8 ∧ cfg.max_extension_size = 3 ∧ cfg.cluster_size = 16384 := by
    rcases get_config_cases hgc with ⟨_, rfl⟩ | ⟨_, rfl⟩ <;> exact ⟨rfl, rfl, rfl⟩
  have hmod : fc.content.length % cfg.cluster_size < 16384 := by
    rw [hclu]
    exact Nat.mod_lt _ (by norm_num)
  have htb1 : to_bytes_le 1 ((fc.content.length / cfg.cluster_size : Nat) : Int) =
      .ok [fc.content.length / cfg.cluster_size] := by
    rw [to_bytes_le_one (Int.ofNat_nonneg _) (by exact_mod_cast hcl), Int.toNat_ofNat]
  have htb2 : to_bytes_le 2 fc.starting_sector =
      .ok [fc.starting_sector.toNat % 256, fc.starting_sector.toNat / 256] :=
    to_bytes_le_two hs0 hs1
  have htb3 : to_bytes_le 1 (((fc.content.length % cfg.cluster_size + 127) / 128 : Nat) : Int) =
      .ok [(fc.content.length % cfg.cluster_size + 127) / 128] := by
    rw [to_bytes_le_one (Int.ofNat_nonneg _) (by exact_mod_cast (by omega :
      (fc.content.length % cfg.cluster_size + 127) / 128 < 256)), Int.toNat_ofNat]
  have hball1 : (stem.all fun c => decide (c.toNat < 128)) = true :=
    List.all_eq_true.mpr fun c hc => by simpa using hsa c hc
  have hball2 : (ext.all fun c => decide (c.toNat < 128)) = true :=
    List.all_eq_true.mpr fun c hc => by simpa using hea c hc
  have hok : ∃ E, create_directory_entry cfg fc = .ok E := by
    simp only [create_directory_entry, hsplit, List.headD_cons, List.drop_one,
      List.tail_cons, hball1, hball2, htb1, htb2, htb3, if_true]
    exact ⟨_, rfl⟩
  obtain ⟨E, hE⟩ := hok
  refine ⟨E, hE, ?_⟩
  have hE' := hE
  simp only [create_directory_entry, hsplit, List.headD_cons, List.drop_one,
    List.tail_cons, hball1, hball2, htb1, htb2, htb3, if_true, hmss, hmes,
    Except.ok.injEq] at hE'
  set c12 : Nat := fc.content.length / cfg.cluster_size with hc12
  set c13 : Nat := fc.starting_sector.toNat % 256 with hc13
  set c14 : Nat := fc.starting_sector.toNat / 256 with hc14
  set c15 : Nat := (fc.content.length % cfg.cluster_size + 127) / 128 with hc15
  set nameRow : List Nat := stem.map Char.toNat ++ List.replicate (8 - stem.length) 32 ++
    ext.map Char.toNat ++ List.replicate (3 - ext.length) 32 with hnr
  have hnrl : nameRow.length = 11 := by
    rw [hnr]
    simp only [List.length_append, List.length_map, List.length_replicate]
    omega
  set r0 : List Nat := [1] ++ stem.map Char.toNat ++ List.replicate (8 - stem.length) 32 ++
    ext.map Char.toNat ++ List.replicate (3 - ext.length) 32 ++
    [c12] ++ [c13, c14] ++ [c15] with hr0
  have hr0tail : r0 = 1 :: (nameRow ++ [c12, c13, c14, c15]) := by
    rw [hr0, hnr]
    simp [List.append_assoc]
  have hr0len : r0.length = 16 := by
    rw [hr0tail]
    simp only [List.length_cons, List.length_append, hnrl]
    rfl
  have hEr : E = ((r0.set 2 (set_bit (r0.getD 2 0) 7)).set 8
      (set_bit ((r0.set 2 (set_bit (r0.getD 2 0) 7)).getD 8 0) 7)).set 9
      (set_bit (((r0.set 2 (set_bit (r0.getD 2 0) 7)).set 8
        (set_bit ((r0.set 2 (set_bit (r0.getD 2 0) 7)).getD 8 0) 7)).getD 9 0) 7) := by
    rw [← hE']
  have hmaster : ∀ j, E.getD j 0 =
      if j = 2 ∨ j = 8 ∨ j = 9 then set_bit (r0.getD j 0) 7 else r0.getD j 0 := by
    intro j
    have h2len : (2 : Nat) < r0.length := by omega
    have h8len : (8 : Nat) < (r0.set 2 (set_bit (r0.getD 2 0) 7)).length := by
      simp only [List.length_set]; omega
    have h9len : (9 : Nat) <
        ((r0.set 2 (set_bit (r0.getD 2 0) 7)).set 8
          (set_bit ((r0.set 2 (set_bit (r0.getD 2 0) 7)).getD 8 0) 7)).length := by
      simp only [List.length_set]; omega
    have hg8 : (r0.set 2 (set_bit (r0.getD 2 0) 7)).getD 8 0 = r0.getD 8 0 :=
      getD_set_other (by omega)
    have hg9 : ((r0.set 2 (set_bit (r0.getD 2 0) 7)).set 8
        (set_bit ((r0.set 2 (set_bit (r0.getD 2 0) 7)).getD 8 0) 7)).getD 9 0 =
        r0.getD 9 0 := by
      rw [getD_set_other (by omega), getD_set_other (by omega)]
    rw [hEr]
    by_cases hj9 : j = 9
    · subst hj9
      rw [getD_set_self h9len, hg9, if_pos (by omega)]
    · rw [getD_set_other (Ne.symm hj9)]
      by_cases hj8 : j = 8
      · subst hj8
        rw [getD_set_self h8len, hg8, if_pos (by omega)]
      · rw [getD_set_other (Ne.symm hj8)]
        by_cases hj2 : j = 2
        · subst hj2
          rw [getD_set_self h2len, if_pos (by omega)]
        · rw [getD_set_other (Ne.symm hj2), if_neg (by omega)]
  have hrow : ∀ i < 11, r0.getD (i + 1) 0 = nameRow.getD i 0 := by
    intro i hi
    rw [hr0tail, List.getD_cons_succ, List.getD_append _ _ _ _ (by omega)]
  have hrest : ∀ k < 4, r0.getD (12 + k) 0 = [c12, c13, c14, c15].getD k 0 := by
    intro k hk
    have h12 : 12 + k = (11 + k) + 1 := by omega
    rw [hr0tail, h12, List.getD_cons_succ,
      List.getD_append_right _ _ _ _ (by rw [hnrl]; omega), hnrl]
    congr 1
    omega
  have hrow_lt : ∀ i < 11, nameRow.getD i 0 < 128 := by
    intro i hi
    have hmem : nameRow.getD i 0 ∈ nameRow := by
      rw [List.getD_eq_getElem _ _ (by omega)]
      exact List.getElem_mem (by omega)
    rw [hnr] at hmem
    rcases List.mem_append.mp hmem with hm | hm4
    · rcases List.mem_append.mp hm with hm | hm3
      · rcases List.mem_append.mp hm with hm1 | hm2
        · obtain ⟨c, hc, heq⟩ := List.mem_map.mp hm1
          rw [← heq]
          exact hsa c hc
        · rw [List.eq_of_mem_replicate hm2]; norm_num
      · obtain ⟨c, hc, heq⟩ := List.mem_map.mp hm3
        rw [← heq]
        exact hea c hc
    · rw [List.eq_of_mem_replicate hm4]; norm_num
  refine ⟨?_, ?_, ?_, ?_, ?_, ?_, ?_, ?_⟩
  · rw [hEr]
    simp only [List.length_set]
    exact hr0len
  · rw [hmaster 0, if_neg (by omega), hr0tail, List.getD_cons_zero]
  · intro i hi
    rw [hmaster (i + 1), hrow i hi]
  · rw [hmaster 12, if_neg (by omega)]
    have := hrest 0 (by omega)
    simpa using this
  · rw [hmaster 13, if_neg (by omega)]
    have := hrest 1 (by omega)
    simpa using this
  · rw [hmaster 14, if_neg (by omega)]
    have := hrest 2 (by omega)
    simpa using this
  · rw [hmaster 15, if_neg (by omega)]
    have := hrest 3 (by omega)
    simpa using this
  · intro i h1 h11
    rw [hmaster i]
    by_cases hc : i = 2 ∨ i = 8 ∨ i = 9
    · rw [if_pos hc, if_pos hc]
      exact get_bit_set_bit_self _
    · rw [if_neg hc, if_neg hc]
      have hi1 : i - 1 + 1 = i := by omega
      have := hrow (i - 1) (by omega)
      rw [hi1] at this
      rw [this]
      exact get_bit_of_lt (hrow_lt (i - 1) (by omega))

/-- C3 witness: the amended layout theorem instantiated at a concrete
`HELLO.ROM` file of 100 content bytes and starting sector 5. -/
theorem claim_C3_entry_layout_witness :
    ∃ E, create_directory_entry config_M048
        ⟨"HELLO.ROM".data, List.replicate 100 7, 5⟩ = .ok E ∧
      E.length = 16 ∧ E.getD 0 0 = 1 := by
  obtain ⟨E, h1, h2, h3, _⟩ := claim_C3_entry_layout "M048" config_M048
    ⟨"HELLO.ROM".data, List.replicate 100 7, 5⟩ "HELLO".data "ROM".data rfl
    (by decide) (by decide) (by decide) (by decide) (by decide) (by decide)
    (by decide) (by decide)
  exact ⟨E, h1, h2, h3⟩

theorem sum_set_nat (l : List Nat) (n a : Nat) (h : n < l.length) :
    (l.set n a).sum + l[n] = l.sum + a := by
  induction l generalizing n with
  | nil => simp at h
  | cons x xs ih =>
    cases n with
    | zero => simp [List.set]; omega
    | succ m =>
      simp only [List.set, List.sum_cons, List.getElem_cons_succ]
      have := ih m (by simpa using h)
      omega

theorem sum_map_list_swap [Inhabited α] (g : α → Nat) (l : List α) {i j : Nat}
    (hi : i < l.length) (hj : j < l.length) :
    ((list_swap l i j).map g).sum = (l.map g).sum := by
  unfold list_swap
  rw [List.map_set, List.map_set]
  have hgi : g (l.getD i default) = (l.map g).getD i (g default) := (List.getD_map _ _ _).symm
  have hgj : g (l.getD j default) = (l.map g).getD j (g default) := (List.getD_map _ _ _).symm
  rw [hgi, hgj]
  have hi' : i < (l.map g).length := by simpa using hi
  have hj' : j < (l.map g).length := by simpa using hj
  rw [List.getD_eq_getElem _ _ hi', List.getD_eq_getElem _ _ hj']
  have h1 := sum_set_nat (l.map g) i ((l.map g)[j]) hi'
  have hj'' : j < ((l.map g).set i ((l.map g)[j])).length := by simpa using hj'
  have h2 := sum_set_nat ((l.map g).set i ((l.map g)[j])) j ((l.map g)[i]) hj''
  by_cases hij : i = j
  · subst hij
    rw [List.getElem_set, if_pos rfl] at h2
    omega
  · rw [List.getElem_set, if_neg hij] at h2
    omega

theorem used_size_list_swap (p : Nat) (l : List FileContent) {i j : Nat}
    (hi : i < l.length) (hj : j < l.length) :
    used_size p (list_swap l i j) = used_size p l := by
  unfold used_size
  exact sum_map_list_swap (padded_size p) l hi hj

theorem move_length (cfg : Config) (contents : List FileContent) (hne : contents ≠ []) :
    (move_smallest_file_to_back cfg contents).1.length = contents.length := by
  obtain ⟨_, heq, _, _⟩ := move_smallest_spec cfg contents hne
  rw [heq, length_list_swap]

theorem used_size_move (cfg : Config) (contents : List FileContent) (hne : contents ≠ []) :
    used_size cfg.padding_size (move_smallest_file_to_back cfg contents).1 =
      used_size cfg.padding_size contents := by
  obtain ⟨hlt, heq, _, _⟩ := move_smallest_spec cfg contents hne
  have hlen : 0 < contents.length := by
    cases contents with
    | nil => exact absurd rfl hne
    | cons x xs => simp
  rw [heq]
  exact used_size_list_swap _ _ (by omega) hlt

theorem write_files_loop_used (cfg : Config) (l : List FileContent) :
    (write_files_loop cfg l []).2.length = used_size cfg.padding_size l := by
  rw [write_files_loop_buf]
  simp only [List.nil_append]
  exact flatMap_file_chunk_length _ _

theorem contents_ne_nil {cfg : Config} {files : List (List Char × List Nat)}
    {contents : List FileContent}
    (hne : files.length ≠ 0) (hv : validate_files cfg files = .ok contents) :
    contents ≠ [] := by
  obtain ⟨_, hlen, _⟩ := validate_files_ok hv
  intro hnil
  rw [hnil] at hlen
  simp at hlen
  exact hne hlen.symm

/-- C5: when the padded content is strictly smaller than the image and
validation has succeeded, the build fails `NoSlotForFiller` exactly if
all directory slots are taken; otherwise the padding stage appends one
synthetic `DUMMY.ROM` entry after all real files in write order, with
`finalImageSize - usedSize` bytes of the fill byte `0xE5` (229) as
content, and the resulting list is one entry longer — the dummy occupies
one directory slot like a real file. -/
theorem claim_C5_dummy_filler (modus : String) (cfg : Config)
    (files : List (List Char × List Nat)) (contents : List FileContent)
    (hgc : get_config modus = .ok cfg)
    (hv : validate_files cfg files = .ok contents)
    (hne : files.length ≠ 0)
    (hused : used_size cfg.padding_size contents < cfg.final_file_size) :
    (contents.length = cfg.max_number_of_files →
      build modus files = .error .noSlotForFiller) ∧
    (contents.length ≠ cfg.max_number_of_files →
      ∃ tbuf free,
        pad_file_until_directory_with_dummy_rom cfg
            (write_files_loop cfg (move_smallest_file_to_back cfg contents).1 []).1
            (write_files_loop cfg (move_smallest_file_to_back cfg contents).1 []).2 =
          .ok ((write_files_loop cfg (move_smallest_file_to_back cfg contents).1 []).1 ++
              [⟨"DUMMY.ROM".data,
                List.replicate
                  (cfg.final_file_size - used_size cfg.padding_size contents) 229,
                ((used_size cfg.padding_size contents / cfg.sector_size : Nat) : Int)⟩],
            tbuf, free) ∧
        ((write_files_loop cfg (move_smallest_file_to_back cfg contents).1 []).1 ++
            [(⟨"DUMMY.ROM".data,
              List.replicate
                (cfg.final_file_size - used_size cfg.padding_size contents) 229,
              ((used_size cfg.padding_size contents / cfg.sector_size : Nat) : Int)⟩ :
              FileContent)]).length = contents.length + 1) := by
  have hcne : contents ≠ [] := contents_ne_nil hne hv
  have hbl : (write_files_loop cfg (move_smallest_file_to_back cfg contents).1 []).2.length =
      used_size cfg.padding_size contents := by
    rw [write_files_loop_used, used_size_move _ _ hcne]
  have hfl : (write_files_loop cfg (move_smallest_file_to_back cfg contents).1 []).1.length =
      contents.length := by
    rw [write_files_loop_length, move_length _ _ hcne]
  have hfs : (write_files_loop cfg (move_smallest_file_to_back cfg contents).1 []).2.length ≠
      cfg.final_file_size := by omega
  constructor
  · intro hmax
    rw [build_eq hne hgc hv]
    have hwok : write_files_with_padding cfg (move_smallest_file_to_back cfg contents).1 =
        .ok (write_files_loop cfg (move_smallest_file_to_back cfg contents).1 []) :=
      write_files_with_padding_ok_exists (by omega)
    rw [hwok]
    dsimp only
    unfold write_directory
    have hpad : pad_file_until_directory_with_dummy_rom cfg
        (write_files_loop cfg (move_smallest_file_to_back cfg contents).1 []).1
        (write_files_loop cfg (move_smallest_file_to_back cfg contents).1 []).2 =
        .error .noSlotForFiller := by
      simp only [pad_file_until_directory_with_dummy_rom]
      rw [if_neg hfs, if_pos (by rw [hfl]; exact hmax)]
    rw [hpad]
  · intro hnmax
    set W1 := (write_files_loop cfg (move_smallest_file_to_back cfg contents).1 []).1 with hW1
    set W2 := (write_files_loop cfg (move_smallest_file_to_back cfg contents).1 []).2 with hW2
    have hpadeq : pad_file_until_directory_with_dummy_rom cfg W1 W2 =
        .ok (W1 ++ [⟨"DUMMY.ROM".data,
            List.replicate (cfg.final_file_size - used_size cfg.padding_size contents) 229,
            ((used_size cfg.padding_size contents / cfg.sector_size : Nat) : Int)⟩],
          (W2 ++ List.replicate
              (cfg.final_file_size - used_size cfg.padding_size contents) 229).take
            ((W2 ++ List.replicate
              (cfg.final_file_size - used_size cfg.padding_size contents) 229).length -
              cfg.max_number_of_files * cfg.directory_entry_size),
          if 0 < cfg.final_file_size / cfg.padding_size -
              used_size cfg.padding_size contents / cfg.padding_size then
            cfg.final_file_size / cfg.padding_size -
              used_size cfg.padding_size contents / cfg.padding_size - 1
          else
            cfg.final_file_size / cfg.padding_size -
              used_size cfg.padding_size contents / cfg.padding_size) := by
      simp only [pad_file_until_directory_with_dummy_rom]
      rw [if_neg hfs, if_neg (by rw [hfl]; exact hnmax), hbl]
    exact ⟨_, _, hpadeq, by simp [hfl]⟩

/-- C5 witness: a single empty `M048` file — 4096 padded bytes used out
of 262144, so a 257536+512-byte dummy is appended by the padding stage. -/
theorem claim_C5_dummy_filler_witness :
    ∃ tbuf free,
      pad_file_until_directory_with_dummy_rom config_M048
          (write_files_loop config_M048
            (move_smallest_file_to_back config_M048
              [⟨"A.X".data, [], -1⟩]).1 []).1
          (write_files_loop config_M048
            (move_smallest_file_to_back config_M048
              [⟨"A.X".data, [], -1⟩]).1 []).2 =
        .ok ((write_files_loop config_M048
            (move_smallest_file_to_back config_M048
              [⟨"A.X".data, [], -1⟩]).1 []).1 ++
            [⟨"DUMMY.ROM".data,
              List.replicate (262144 - used_size config_M048.padding_size
                [⟨"A.X".data, [], -1⟩]) 229,
              ((used_size config_M048.padding_size [⟨"A.X".data, [], -1⟩] / 128 : Nat) : Int)⟩],
          tbuf, free) := by
  have husd : used_size config_M048.padding_size [⟨"A.X".data, [], -1⟩] < 262144 := by
    simp [used_size, padded_size, config_M048]
  have hv : validate_files config_M048 [("A.X".data, ([] : List Nat))] =
      .ok [⟨"A.X".data, [], -1⟩] := by decide
  obtain ⟨h1, h2⟩ := claim_C5_dummy_filler "M048" config_M048
    [("A.X".data, ([] : List Nat))] [⟨"A.X".data, [], -1⟩] rfl hv (by decide) husd
  obtain ⟨tbuf, free, hp, _⟩ := h2 (by decide)
  exact ⟨tbuf, free, hp⟩

theorem write_files_loop_last_content (cfg : Config) :
    ∀ (l : List FileContent) (buf : List Nat) (d1 d2 : FileContent), l ≠ [] →
      ((write_files_loop cfg l buf).1.getLastD d1).content = (l.getLastD d2).content := by
  intro l
  induction l with
  | nil => intro buf d1 d2 h; exact absurd rfl h
  | cons fc rest ih =>
    intro buf d1 d2 _
    cases hr : rest with
    | nil =>
      subst hr
      simp [write_files_loop]
    | cons r rs =>
      subst hr
      rw [write_files_loop]
      dsimp only
      rw [List.getLastD_cons, List.getLastD_cons]
      exact ih _ _ _ (by simp)

theorem splitext_ext_head {p : List Char} (h : (splitext p).2 ≠ []) :
    (splitext p).2.headD ' ' = '.' := by
  unfold splitext at h ⊢
  cases hr : rfind '.' p with
  | none => rw [hr] at h; simp at h
  | some d =>
    rw [hr] at h
    obtain ⟨hd1, hd2, _⟩ := rfind_some hr
    simp only at h ⊢
    split_ifs at h ⊢ with h1 h2
    · have : (p.drop d).headD ' ' = p[d]?.getD ' ' := by
        rw [List.headD_eq_head?, List.head?_drop]
      rw [this]
      rw [List.getD_eq_getElem?_getD] at hd2
      exact hd2
    · simp at h
    · simp at h

theorem create_directory_entry_ok_exists {cfg : Config} {fc : FileContent}
    (hdot : (splitext fc.filename).2.headD ' ' = '.')
    (hsa : ∀ c ∈ (splitext fc.filename).1, c.toNat < 128)
    (hea : ∀ c ∈ (splitext fc.filename).2, c.toNat < 128)
    (hcl : fc.content.length / cfg.cluster_size < 256)
    (hclu : cfg.cluster_size = 16384)
    (hs0 : 0 ≤ fc.starting_sector) (hs1 : fc.starting_sector < 65536) :
    ∃ r, create_directory_entry cfg fc = .ok r := by
  have hmod : fc.content.length % cfg.cluster_size < 16384 := by
    rw [hclu]
    exact Nat.mod_lt _ (by norm_num)
  have htb1 := to_bytes_le_one (v := ((fc.content.length / cfg.cluster_size : Nat) : Int))
    (Int.ofNat_nonneg _) (by exact_mod_cast hcl)
  have htb2 := to_bytes_le_two hs0 hs1
  have htb3 := to_bytes_le_one
    (v := (((fc.content.length % cfg.cluster_size + 127) / 128 : Nat) : Int))
    (Int.ofNat_nonneg _) (by exact_mod_cast (show
      (fc.content.length % cfg.cluster_size + 127) / 128 < 256 by omega))
  have hball1 : ((splitext fc.filename).1.all fun c => decide (c.toNat < 128)) = true :=
    List.all_eq_true.mpr fun c hc => by simpa using hsa c hc
  have hball2 : (((splitext fc.filename).2.drop 1).all fun c => decide (c.toNat < 128)) = true :=
    List.all_eq_true.mpr fun c hc => by simpa using hea c (List.mem_of_mem_drop hc)
  simp only [create_directory_entry, hdot, hball1, hball2, htb1, htb2, htb3, if_true]
  exact ⟨_, rfl⟩

/-- C4 (amended): with validated input whose padded content size exactly
equals `finalImageSize` and every resolved name carrying an extension
separator (a dot-less name instead aborts the directory encoder on an
internal assertion), the build fails `DirectoryDoesNotFit` exactly when
the write-order last file's trailing slack
`paddingBlockSize - (contentLen mod paddingBlockSize)` is smaller than
`entrySize * maxFileCount`; otherwise the directory is carved out of
that trailing padding and the build succeeds with no dummy filler entry
added. -/
theorem claim_C4_exact_fill (modus : String) (cfg : Config)
    (files : List (List Char × List Nat)) (contents : List FileContent)
    (hgc : get_config modus = .ok cfg)
    (hv : validate_files cfg files = .ok contents)
    (hne : files.length ≠ 0)
    (hused : used_size cfg.padding_size contents = cfg.final_file_size)
    (hdot : ∀ fc ∈ contents, (splitext fc.filename).2 ≠ []) :
    (build modus files = .error .directoryDoesNotFit ↔
      cfg.padding_size -
          ((move_smallest_file_to_back cfg contents).1.getLastD default).content.length %
            cfg.padding_size <
        cfg.max_number_of_files * cfg.directory_entry_size) ∧
    (cfg.max_number_of_files * cfg.directory_entry_size ≤
        cfg.padding_size -
          ((move_smallest_file_to_back cfg contents).1.getLastD default).content.length %
            cfg.padding_size →
      ∃ img free,
        build modus files =
          .ok (img,
            (write_files_loop cfg (move_smallest_file_to_back cfg contents).1 []).1, free) ∧
        (write_files_loop cfg (move_smallest_file_to_back cfg contents).1 []).1.length =
          contents.length) := by
  obtain ⟨hclu, hsec, hfin⟩ :
      cfg.cluster_size = 16384 ∧ cfg.sector_size = 128 ∧ cfg.final_file_size ≤ 524288 := by
    rcases get_config_cases hgc with ⟨_, rfl⟩ | ⟨_, rfl⟩ <;> exact ⟨rfl, rfl, by decide⟩
  have hcne : contents ≠ [] := contents_ne_nil hne hv
  obtain ⟨hvmax, hvlen, hvmem⟩ := validate_files_ok hv
  obtain ⟨hidc, hmoveeq, _, _⟩ := move_smallest_spec cfg contents hcne
  have hclen : 0 < contents.length := by
    cases contents with
    | nil => exact absurd rfl hcne
    | cons x xs => simp
  have hbl : (write_files_loop cfg (move_smallest_file_to_back cfg contents).1 []).2.length =
      cfg.final_file_size := by
    rw [write_files_loop_used, used_size_move _ _ hcne, hused]
  have hfl : (write_files_loop cfg (move_smallest_file_to_back cfg contents).1 []).1.length =
      contents.length := by
    rw [write_files_loop_length, move_length _ _ hcne]
  have hmne : (move_smallest_file_to_back cfg contents).1 ≠ [] := by
    intro hnil
    have := move_length cfg contents hcne
    rw [hnil] at this
    simp at this
    omega
  have hlast : ((write_files_loop cfg (move_smallest_file_to_back cfg contents).1 []).1.getLastD
      default).content = ((move_smallest_file_to_back cfg contents).1.getLastD default).content :=
    write_files_loop_last_content cfg _ [] default default hmne
  have hwok : write_files_with_padding cfg (move_smallest_file_to_back cfg contents).1 =
      .ok (write_files_loop cfg (move_smallest_file_to_back cfg contents).1 []) :=
    write_files_with_padding_ok_exists (by omega)
  rw [build_eq hne hgc hv, hwok]
  dsimp only
  by_cases hslack : cfg.padding_size -
      ((move_smallest_file_to_back cfg contents).1.getLastD default).content.length %
        cfg.padding_size <
      cfg.max_number_of_files * cfg.directory_entry_size
  · have hpad : pad_file_until_directory_with_dummy_rom cfg
        (write_files_loop cfg (move_smallest_file_to_back cfg contents).1 []).1
        (write_files_loop cfg (move_smallest_file_to_back cfg contents).1 []).2 =
        .error .directoryDoesNotFit := by
      simp only [pad_file_until_directory_with_dummy_rom]
      rw [if_pos hbl, if_pos (by rw [hlast]; exact hslack)]
    have hwd : write_directory cfg
        (write_files_loop cfg (move_smallest_file_to_back cfg contents).1 []).1
        (write_files_loop cfg (move_smallest_file_to_back cfg contents).1 []).2
        (move_smallest_file_to_back cfg contents).2 = .error .directoryDoesNotFit := by
      unfold write_directory
      rw [hpad]
    rw [hwd]
    exact ⟨⟨fun _ => hslack, fun _ => rfl⟩, fun hge => absurd hslack (by omega)⟩
  · have hpad : pad_file_until_directory_with_dummy_rom cfg
        (write_files_loop cfg (move_smallest_file_to_back cfg contents).1 []).1
        (write_files_loop cfg (move_smallest_file_to_back cfg contents).1 []).2 =
        .ok ((write_files_loop cfg (move_smallest_file_to_back cfg contents).1 []).1,
          (write_files_loop cfg (move_smallest_file_to_back cfg contents).1 []).2.take
            ((write_files_loop cfg (move_smallest_file_to_back cfg contents).1 []).2.length -
              cfg.max_number_of_files * cfg.directory_entry_size),
          if 0 < cfg.final_file_size / cfg.padding_size -
              (write_files_loop cfg
                (move_smallest_file_to_back cfg contents).1 []).2.length /
                cfg.padding_size then
            cfg.final_file_size / cfg.padding_size -
              (write_files_loop cfg
                (move_smallest_file_to_back cfg contents).1 []).2.length /
                cfg.padding_size - 1
          else
            cfg.final_file_size / cfg.padding_size -
              (write_files_loop cfg
                (move_smallest_file_to_back cfg contents).1 []).2.length /
                cfg.padding_size) := by
      simp only [pad_file_until_directory_with_dummy_rom]
      rw [if_pos hbl, if_neg (by rw [hlast]; exact hslack)]
    have hcreate : ∀ fc ∈ (write_files_loop cfg (move_smallest_file_to_back cfg contents).1 []).1,
        ∃ e, create_directory_entry cfg fc = .ok e := by
      intro fc hfc
      have hmm2 : (fc.filename, fc.content) ∈
          (move_smallest_file_to_back cfg contents).1.map (fun fc => (fc.filename, fc.content)) := by
        rw [← write_files_loop_files cfg (move_smallest_file_to_back cfg contents).1 []]
        exact List.mem_map_of_mem _ hfc
      obtain ⟨fc0, hfc0, heq0⟩ := List.mem_map.mp hmm2
      have hname : fc0.filename = fc.filename := congrArg Prod.fst heq0
      have hcont : fc0.content = fc.content := congrArg Prod.snd heq0
      have hfc0c : fc0 ∈ contents := by
        rw [hmoveeq] at hfc0
        exact mem_of_mem_list_swap (by omega) hidc hfc0
      obtain ⟨pp, hpp, hres, _, _⟩ := hvmem fc0 hfc0c
      obtain ⟨_, _, _, hascii⟩ := resolve_name_ok hres
      rw [hname] at hascii
      have hdot0 : (splitext fc.filename).2 ≠ [] := hname ▸ hdot fc0 hfc0c
      have hsa : ∀ c ∈ (splitext fc.filename).1, c.toNat < 128 :=
        fun c hc => hascii c ((splitext_stem_sublist _).mem hc)
      have hea : ∀ c ∈ (splitext fc.filename).2, c.toNat < 128 :=
        fun c hc => hascii c ((splitext_ext_sublist _).mem hc)
      have hlen_le : fc.content.length ≤ cfg.final_file_size := by
        rw [← hcont, ← hused]
        exact content_le_used hfc0c
      have hcl : fc.content.length / cfg.cluster_size < 256 := by
        rw [hclu]
        rw [Nat.div_lt_iff_lt_mul (by norm_num)]
        omega
      obtain ⟨k, hks, hk1, hk2⟩ :=
        write_files_loop_sectors cfg (move_smallest_file_to_back cfg contents).1 [] fc hfc
      have hs0 : 0 ≤ fc.starting_sector := by rw [hks]; exact Int.ofNat_nonneg _
      have hs1 : fc.starting_sector < 65536 := by
        rw [hks]
        have hkf : k ≤ cfg.final_file_size := by omega
        have : k / cfg.sector_size < 65536 := by
          rw [hsec, Nat.div_lt_iff_lt_mul (by norm_num)]
          omega
        exact_mod_cast this
      exact create_directory_entry_ok_exists (splitext_ext_head hdot0) hsa hea hcl hclu hs0 hs1
    obtain ⟨entries, heml⟩ := except_map_list_ok_exists hcreate
    have hwd : ∃ img free, write_directory cfg
        (write_files_loop cfg (move_smallest_file_to_back cfg contents).1 []).1
        (write_files_loop cfg (move_smallest_file_to_back cfg contents).1 []).2
        (move_smallest_file_to_back cfg contents).2 =
        .ok (img, (write_files_loop cfg (move_smallest_file_to_back cfg contents).1 []).1,
          free) := by
      unfold write_directory
      rw [hpad]
      dsimp only
      rw [heml]
      exact ⟨_, _, rfl⟩
    obtain ⟨img, free, hwd⟩ := hwd
    rw [hwd]
    constructor
    · constructor
      · intro hcontra
        cases hcontra
      · intro hlt
        exact absurd hlt hslack
    · intro _
      exact ⟨img, free, rfl, hfl⟩

theorem padded_size_def (p : Nat) (fc : FileContent) :
    padded_size p fc = fc.content.length + (p - fc.content.length % p) := rfl

theorem used_size_nil (p : Nat) : used_size p [] = 0 := rfl

theorem used_size_cons (p : Nat) (fc : FileContent) (l : List FileContent) :
    used_size p (fc :: l) = padded_size p fc + used_size p l := by
  simp [used_size]

/-- C4 witness: one `M048` file of 262044 content bytes pads to exactly
262144 bytes; the write-order last (only) file leaves 100 bytes of
slack, fewer than the 512-byte directory, so the theorem's equivalence
applies (and the build fails `DirectoryDoesNotFit`). -/
theorem claim_C4_exact_fill_witness :
    used_size config_M048.padding_size
        [⟨"A.X".data, List.replicate 262044 0, -1⟩] = config_M048.final_file_size ∧
    (build "M048" [("A.X".data, List.replicate 262044 0)] = .error .directoryDoesNotFit ↔
      config_M048.padding_size -
          ((move_smallest_file_to_back config_M048
            [⟨"A.X".data, List.replicate 262044 0, -1⟩]).1.getLastD default).content.length %
            config_M048.padding_size <
        config_M048.max_number_of_files * config_M048.directory_entry_size) := by
  have hused : used_size config_M048.padding_size
      [⟨"A.X".data, List.replicate 262044 0, -1⟩] = config_M048.final_file_size := by
    rw [used_size_cons, used_size_nil, padded_size_def]
    rw [show (⟨"A.X".data, List.replicate 262044 0, -1⟩ : FileContent).content =
      List.replicate 262044 0 from rfl, List.length_replicate]
    norm_num [config_M048]
  have hv : validate_files config_M048 [("A.X".data, List.replicate 262044 0)] =
      .ok [⟨"A.X".data, List.replicate 262044 0, -1⟩] := rfl
  exact ⟨hused,
    (claim_C4_exact_fill "M048" config_M048 [("A.X".data, List.replicate 262044 0)]
      [⟨"A.X".data, List.replicate 262044 0, -1⟩] rfl hv (by decide) hused (by decide)).1⟩

theorem getLastD_nil {α : Type} (d : α) : ([] : List α).getLastD d = d := rfl

theorem write_files_loop_nil (cfg : Config) (buf : List Nat) :
    write_files_loop cfg [] buf = ([], buf) := rfl

theorem write_files_loop_cons (cfg : Config) (fc : FileContent)
    (rest : List FileContent) (buf : List Nat) :
    write_files_loop cfg (fc :: rest) buf =
      ((⟨fc.filename, fc.content, ((buf.length / cfg.sector_size : Nat) : Int)⟩ :
          FileContent) ::
        (write_files_loop cfg rest (buf ++ fc.content ++
          List.replicate (cfg.padding_size - fc.content.length % cfg.padding_size) 0)).1,
       (write_files_loop cfg rest (buf ++ fc.content ++
          List.replicate (cfg.padding_size - fc.content.length % cfg.padding_size) 0)).2) :=
  rfl

theorem except_map_list_nil (f : α → Except Err β) : except_map_list f [] = .ok [] := rfl

theorem except_map_list_cons_ok {f : α → Except Err β} {x : α} {xs : List α}
    {y : β} {ys : List β} (hx : f x = .ok y) (hxs : except_map_list f xs = .ok ys) :
    except_map_list f (x :: xs) = .ok (y :: ys) := by
  simp only [except_map_list, hx, hxs]

theorem except_map_list_cons_error {f : α → Except Err β} {x : α} {xs : List α}
    {e : Err} (hx : f x = .error e) :
    except_map_list f (x :: xs) = .error e := by
  simp only [except_map_list, hx]

theorem pad_exact_ok {cfg : Config} {contents : List FileContent} {buf : List Nat}
    (hfsz : buf.length = cfg.final_file_size)
    (hsp : ¬ (cfg.padding_size -
        (contents.getLastD default).content.length % cfg.padding_size <
      cfg.max_number_of_files * cfg.directory_entry_size)) :
    pad_file_until_directory_with_dummy_rom cfg contents buf =
      .ok (contents,
        buf.take (buf.length - cfg.max_number_of_files * cfg.directory_entry_size), 0) := by
  simp only [pad_file_until_directory_with_dummy_rom]
  rw [if_pos hfsz, if_neg hsp, hfsz, Nat.sub_self, if_neg (by omega)]

theorem pad_dummy_ok {cfg : Config} {contents : List FileContent} {buf : List Nat}
    (hfsz : buf.length ≠ cfg.final_file_size)
    (hlen : contents.length ≠ cfg.max_number_of_files) :
    pad_file_until_directory_with_dummy_rom cfg contents buf =
      .ok (contents ++ [⟨"DUMMY.ROM".data,
          List.replicate (cfg.final_file_size - buf.length) 229,
          ((buf.length / cfg.sector_size : Nat) : Int)⟩],
        (buf ++ List.replicate (cfg.final_file_size - buf.length) 229).take
          ((buf ++ List.replicate (cfg.final_file_size - buf.length) 229).length -
            cfg.max_number_of_files * cfg.directory_entry_size),
        if 0 < cfg.final_file_size / cfg.padding_size - buf.length / cfg.padding_size then
          cfg.final_file_size / cfg.padding_size - buf.length / cfg.padding_size - 1
        else cfg.final_file_size / cfg.padding_size - buf.length / cfg.padding_size) := by
  simp only [pad_file_until_directory_with_dummy_rom]
  rw [if_neg hfsz, if_neg hlen]

theorem write_directory_pad_error {cfg : Config} {contents : List FileContent}
    {buf : List Nat} {sw : Nat} {e : Err}
    (h : pad_file_until_directory_with_dummy_rom cfg contents buf = .error e) :
    write_directory cfg contents buf sw = .error e := by
  unfold write_directory
  rw [h]

theorem write_directory_eml_error {cfg : Config} {contents : List FileContent}
    {buf : List Nat} {sw : Nat} {pr : List FileContent × List Nat × Nat} {e : Err}
    (hp : pad_file_until_directory_with_dummy_rom cfg contents buf = .ok pr)
    (he : except_map_list (create_directory_entry cfg) pr.1 = .error e) :
    write_directory cfg contents buf sw = .error e := by
  unfold write_directory
  rw [hp]
  dsimp only
  rw [he]

theorem write_directory_eq_ok {cfg : Config} {contents : List FileContent}
    {buf : List Nat} {sw : Nat} {pr : List FileContent × List Nat × Nat}
    {entries : List (List Nat)}
    (hp : pad_file_until_directory_with_dummy_rom cfg contents buf = .ok pr)
    (he : except_map_list (create_directory_entry cfg) pr.1 = .ok entries) :
    write_directory cfg contents buf sw =
      .ok (pr.2.1 ++ (list_swap entries (entries.length - 1) sw).flatten ++
        List.replicate ((cfg.max_number_of_files - pr.1.length) * 16) 229, pr.1, pr.2.2) := by
  unfold write_directory
  rw [hp]
  dsimp only
  rw [he]

theorem build_write_ok {modus : String} {files : List (List Char × List Nat)}
    {cfg : Config} {contents nc : List FileContent} {buf : List Nat}
    (hne : files.length ≠ 0) (hgc : get_config modus = .ok cfg)
    (hv : validate_files cfg files = .ok contents)
    (hw : write_files_with_padding cfg (move_smallest_file_to_back cfg contents).1 =
      .ok (nc, buf)) :
    build modus files =
      write_directory cfg nc buf (move_smallest_file_to_back cfg contents).2 := by
  rw [build_eq hne hgc hv, hw]


theorem move_smallest_singleton (cfg : Config) (fc : FileContent) :
    move_smallest_file_to_back cfg [fc] = ([fc], 0) := rfl

theorem create_directory_entry_no_dot {cfg : Config} {fc : FileContent}
    (h : ¬ (splitext fc.filename).2.headD ' ' = '.') :
    create_directory_entry cfg fc = .error .internalAssert := by
  simp only [create_directory_entry]
  rw [if_neg h]

/-- C4 counterexample: one `M048` file named `ROMFILE` (no dot) whose
262144 padded bytes exactly fill the image and whose 512-byte slack
equals the directory size — the claim promises success, but the build
dies on the internal `extension[0] == "."` assertion of the directory
encoder instead. -/
theorem claim_C4_counterexample :
    used_size config_M048.padding_size [⟨"ROMFILE".data, List.replicate 261632 0, -1⟩] =
      config_M048.final_file_size ∧
    ¬ (config_M048.padding_size -
        ((move_smallest_file_to_back config_M048
          [⟨"ROMFILE".data, List.replicate 261632 0, -1⟩]).1.getLastD default).content.length %
          config_M048.padding_size <
      config_M048.max_number_of_files * config_M048.directory_entry_size) ∧
    build "M048" [("ROMFILE".data, List.replicate 261632 0)] = .error .internalAssert := by
  have hmove := move_smallest_singleton config_M048
    ⟨"ROMFILE".data, List.replicate 261632 0, -1⟩
  have hv : validate_files config_M048 [("ROMFILE".data, List.replicate 261632 0)] =
      .ok [⟨"ROMFILE".data, List.replicate 261632 0, -1⟩] := rfl
  have hgc : get_config "M048" = .ok config_M048 := rfl
  have hpadamt : config_M048.padding_size -
      (List.replicate 261632 (0 : Nat)).length % config_M048.padding_size = 512 := by
    rw [List.length_replicate]
    norm_num [config_M048]
  have hW : write_files_loop config_M048 [⟨"ROMFILE".data, List.replicate 261632 0, -1⟩] [] =
      ([⟨"ROMFILE".data, List.replicate 261632 0, 0⟩],
       List.replicate 261632 0 ++ List.replicate 512 0) := by
    rw [write_files_loop_cons, write_files_loop_nil]
    rw [show (⟨"ROMFILE".data, List.replicate 261632 0, -1⟩ : FileContent).content =
      List.replicate 261632 0 from rfl, hpadamt, List.nil_append]
    rfl
  have hBlen : (List.replicate 261632 (0 : Nat) ++ List.replicate 512 0).length = 262144 := by
    rw [List.length_append, List.length_replicate, List.length_replicate]
  have hwf : write_files_with_padding config_M048
      [⟨"ROMFILE".data, List.replicate 261632 0, -1⟩] =
      .ok ([⟨"ROMFILE".data, List.replicate 261632 0, 0⟩],
        List.replicate 261632 0 ++ List.replicate 512 0) := by
    simp only [write_files_with_padding, hW]
    rw [if_neg (by rw [hBlen]; norm_num [config_M048])]
  have hlast : (([⟨"ROMFILE".data, List.replicate 261632 0, 0⟩] :
      List FileContent).getLastD default).content.length = 261632 := by
    rw [List.getLastD_cons, getLastD_nil]
    rw [show (⟨"ROMFILE".data, List.replicate 261632 0, 0⟩ : FileContent).content =
      List.replicate 261632 0 from rfl, List.length_replicate]
  have hp : pad_file_until_directory_with_dummy_rom config_M048
      [⟨"ROMFILE".data, List.replicate 261632 0, 0⟩]
      (List.replicate 261632 0 ++ List.replicate 512 0) =
      .ok ([⟨"ROMFILE".data, List.replicate 261632 0, 0⟩],
        (List.replicate 261632 0 ++ List.replicate 512 0).take
          ((List.replicate 261632 0 ++ List.replicate 512 0).length -
            config_M048.max_number_of_files * config_M048.directory_entry_size), 0) :=
    pad_exact_ok (by rw [hBlen]; rfl)
      (by rw [hlast]; norm_num [config_M048])
  have hse : splitext ("ROMFILE".data) = ("ROMFILE".data, []) := by decide
  have hcr : create_directory_entry config_M048
      ⟨"ROMFILE".data, List.replicate 261632 0, 0⟩ = .error .internalAssert :=
    create_directory_entry_no_dot (by
      rw [show (⟨"ROMFILE".data, List.replicate 261632 0, 0⟩ : FileContent).filename =
        "ROMFILE".data from rfl, hse]
      decide)
  have hwd : write_directory config_M048 [⟨"ROMFILE".data, List.replicate 261632 0, 0⟩]
      (List.replicate 261632 0 ++ List.replicate 512 0) 0 = .error .internalAssert :=
    write_directory_eml_error hp (except_map_list_cons_error hcr)
  have hne : ([("ROMFILE".data, List.replicate 261632 0)] :
      List (List Char × List Nat)).length ≠ 0 := by decide
  refine ⟨?_, ?_, ?_⟩
  · rw [used_size_cons, used_size_nil, padded_size_def]
    rw [show (⟨"ROMFILE".data, List.replicate 261632 0, -1⟩ : FileContent).content =
      List.replicate 261632 0 from rfl, List.length_replicate]
    norm_num [config_M048]
  · rw [hmove]
    rw [show (([⟨"ROMFILE".data, List.replicate 261632 0, -1⟩], 0) :
      List FileContent × Nat).1 = [⟨"ROMFILE".data, List.replicate 261632 0, -1⟩] from rfl]
    rw [List.getLastD_cons, getLastD_nil]
    rw [show (⟨"ROMFILE".data, List.replicate 261632 0, -1⟩ : FileContent).content =
      List.replicate 261632 0 from rfl, List.length_replicate]
    norm_num [config_M048]
  · have hb := build_write_ok hne hgc hv (by rw [hmove]; exact hwf)
    rw [hb, hmove]
    exact hwd

theorem build_duplicate_iff {modus : String} {files : List (List Char × List Nat)}
    {cfg : Config} (hgc : get_config modus = .ok cfg) :
    build modus files = .error .duplicateName ↔
      files.length ≠ 0 ∧ files.length ≤ cfg.max_number_of_files ∧
      ¬ (files.map Prod.fst).Nodup := by
  constructor
  · intro h
    by_cases hne : files.length = 0
    · exfalso
      simp only [build] at h
      rw [if_pos hne] at h
      exact absurd h (by decide)
    · refine ⟨hne, ?_⟩
      cases hv : validate_files cfg files with
      | error e =>
        simp only [build] at h
        rw [if_neg hne, hgc] at h
        dsimp only at h
        rw [hv] at h
        dsimp only at h
        rw [Except.error.injEq] at h
        rw [h] at hv
        exact (validate_files_error_dup_iff cfg files).mp hv
      | ok contents =>
        exfalso
        rw [build_eq hne hgc hv] at h
        cases hw : write_files_with_padding cfg
            (move_smallest_file_to_back cfg contents).1 with
        | error e =>
          rw [hw] at h
          dsimp only at h
          rw [Except.error.injEq] at h
          rw [h] at hw
          exact absurd (write_files_with_padding_error hw) (by decide)
        | ok wr =>
          rw [hw] at h
          dsimp only at h
          rcases write_directory_error h with h1 | h1 | h1 <;> exact absurd h1 (by decide)
  · intro h
    have hv : validate_files cfg files = .error .duplicateName :=
      (validate_files_error_dup_iff cfg files).mpr ⟨h.2.1, h.2.2⟩
    simp only [build]
    rw [if_neg h.1, hgc]
    dsimp only
    rw [hv]

/-- C9, amended: the duplicate check runs on the raw manifest names as
supplied, not on the resolved stem/extension pairs — for a recognised
variant the build fails with `DuplicateName` exactly when the input is
non-empty, within the file-count bound, and two raw names are textually
equal. -/
theorem claim_C9_duplicate_raw (modus : String) (files : List (List Char × List Nat))
    (cfg : Config) (hgc : get_config modus = .ok cfg) :
    build modus files = .error .duplicateName ↔
      files.length ≠ 0 ∧ files.length ≤ cfg.max_number_of_files ∧
      ¬ (files.map Prod.fst).Nodup :=
  build_duplicate_iff hgc

theorem claim_C9_duplicate_raw_witness :
    get_config "M048" = .ok config_M048 ∧
    build "M048" [("F.X".data, []), ("F.X".data, [])] = .error .duplicateName :=
  ⟨rfl, (claim_C9_duplicate_raw "M048" [("F.X".data, []), ("F.X".data, [])]
    config_M048 rfl).mpr (by decide)⟩

/-- C9 counterexample: `a/F.X` and `b/F.X` resolve to the identical
name `F.X`, yet the build does not fail with `DuplicateName`, because
the code compares the raw manifest lines, not the resolved names. -/
theorem claim_C9_counterexample :
    resolve_name ("a/F.X".data) = .ok ("F.X".data) ∧
    resolve_name ("b/F.X".data) = .ok ("F.X".data) ∧
    ¬ (build "M048" [("a/F.X".data, []), ("b/F.X".data, [])] =
      .error .duplicateName) := by
  refine ⟨by decide, by decide, ?_⟩
  rw [build_duplicate_iff (rfl : get_config "M048" = .ok config_M048)]
  decide

theorem write_files_loop_mem_filename {cfg : Config} {l : List FileContent}
    {fc : FileContent} (h : fc ∈ (write_files_loop cfg l []).1) :
    ∃ g ∈ l, g.filename = fc.filename := by
  have hmap := write_files_loop_files cfg l []
  have hm : (fc.filename, fc.content) ∈
      (write_files_loop cfg l []).1.map (fun fc => (fc.filename, fc.content)) :=
    List.mem_map_of_mem _ h
  rw [hmap] at hm
  obtain ⟨g, hg, heq⟩ := List.mem_map.mp hm
  exact ⟨g, hg, congrArg Prod.fst heq⟩

theorem build_cts_name_bounds {cfg : Config} {files : List (List Char × List Nat)}
    {contents : List FileContent} (hne : files.length ≠ 0)
    (hv : validate_files cfg files = .ok contents) {fc : FileContent}
    (hfc : fc ∈ (write_files_loop cfg (move_smallest_file_to_back cfg contents).1 []).1) :
    (splitext fc.filename).1.length ≤ 8 ∧ (splitext fc.filename).2.length ≤ 4 := by
  obtain ⟨g, hg, hname⟩ := write_files_loop_mem_filename hfc
  have hcne := contents_ne_nil hne hv
  obtain ⟨hlt, hswap, -, -⟩ := move_smallest_spec cfg contents hcne
  rw [hswap] at hg
  have hlen0 : 0 < contents.length := List.length_pos.mpr hcne
  have hg2 : g ∈ contents := mem_of_mem_list_swap (by omega) hlt hg
  obtain ⟨-, -, hall⟩ := validate_files_ok hv
  obtain ⟨p, hp, hrn, -, -⟩ := hall g hg2
  obtain ⟨-, h1, h2, -⟩ := resolve_name_ok hrn
  rw [← hname]
  exact ⟨h1, h2⟩

theorem build_ok_image_length {modus : String} {files : List (List Char × List Nat)}
    {cfg : Config} {img : List Nat} {cts : List FileContent} {fr : Nat}
    (hgc : get_config modus = .ok cfg)
    (hmss : cfg.max_stem_size = 8) (hmes : cfg.max_extension_size = 3)
    (hdes : cfg.directory_entry_size = 16)
    (hsn : cfg.max_number_of_files * cfg.directory_entry_size ≤ cfg.final_file_size)
    (h : build modus files = .ok (img, cts, fr)) :
    img.length = cfg.final_file_size := by
  by_cases hne : files.length = 0
  · simp only [build] at h
    rw [if_pos hne] at h
    exact Except.noConfusion h
  cases hv : validate_files cfg files with
  | error e =>
    exfalso
    simp only [build] at h
    rw [if_neg hne, hgc] at h
    dsimp only at h
    rw [hv] at h
    dsimp only at h
    exact Except.noConfusion h
  | ok contents =>
  rw [build_eq hne hgc hv] at h
  cases hw : write_files_with_padding cfg (move_smallest_file_to_back cfg contents).1 with
  | error e =>
    rw [hw] at h
    dsimp only at h
    exact Except.noConfusion h
  | ok wr =>
  obtain ⟨nc, buf⟩ := wr
  rw [hw] at h
  dsimp only at h
  obtain ⟨b2, entries, hp, he, himg⟩ := write_directory_ok_spec h
  obtain ⟨hnc, hbuf, hble⟩ := write_files_with_padding_ok hw
  obtain ⟨hb2, hpath⟩ := pad_ok_spec hp hble hsn
  have hcne := contents_ne_nil hne hv
  obtain ⟨hvle, hvlen, -⟩ := validate_files_ok hv
  have hnclen : nc.length = contents.length := by
    rw [hnc, write_files_loop_length]
    exact move_length cfg contents hcne
  have hent16 : ∀ e ∈ entries, e.length = 16 := by
    intro e hemem
    obtain ⟨fc, hfc, hcre⟩ := except_map_list_ok_forall he e hemem
    have hbounds : (splitext fc.filename).1.length ≤ 8 ∧
        (splitext fc.filename).2.length ≤ 4 := by
      rcases hpath with ⟨hcts, -⟩ | ⟨-, -, hcts⟩
      · rw [hcts, hnc] at hfc
        exact build_cts_name_bounds hne hv hfc
      · rw [hcts, hnc] at hfc
        rcases List.mem_append.mp hfc with hfc1 | hfc2
        · exact build_cts_name_bounds hne hv hfc1
        · have hdn : fc.filename = "DUMMY.ROM".data := by
            rw [List.mem_singleton] at hfc2
            rw [hfc2]
          rw [hdn]
          exact ⟨by decide, by decide⟩
    have hl := create_directory_entry_ok_length hcre
      (by rw [hmss]; exact hbounds.1) (by rw [hmes]; exact hbounds.2)
    rw [hl, hmss, hmes]
  have hclen : cts.length ≤ cfg.max_number_of_files := by
    rcases hpath with ⟨hcts, -⟩ | ⟨-, hneq, hcts⟩
    · rw [hcts, hnclen, hvlen]
      exact hvle
    · rw [hcts, List.length_append, List.length_singleton]
      rw [hnclen, hvlen] at hneq ⊢
      omega
  have hctspos : 0 < cts.length := by
    rcases hpath with ⟨hcts, -⟩ | ⟨-, -, hcts⟩
    · rw [hcts, hnclen]
      exact List.length_pos.mpr hcne
    · rw [hcts, List.length_append, List.length_singleton]
      omega
  have helen : entries.length = cts.length := except_map_list_ok_length he
  have hsw_lt : (move_smallest_file_to_back cfg contents).2 < entries.length := by
    have h1 := (move_smallest_spec cfg contents hcne).1
    rw [helen]
    rcases hpath with ⟨hcts, -⟩ | ⟨-, -, hcts⟩
    · rw [hcts, hnclen]
      exact h1
    · rw [hcts, List.length_append, List.length_singleton]
      omega
  rw [himg, List.length_append, List.length_append, hb2]
  have hflat : (list_swap entries (entries.length - 1)
      (move_smallest_file_to_back cfg contents).2).flatten.length =
      16 * (list_swap entries (entries.length - 1)
        (move_smallest_file_to_back cfg contents).2).length :=
    flatten_length_of_all
      (fun e hemem => hent16 e (mem_of_mem_list_swap (by omega) hsw_lt hemem))
  rw [hflat, length_list_swap, List.length_replicate, helen, hdes] at *
  omega

/-- C2: every successful build returns an image of exactly
`final_file_size` bytes for the recognised variant — 262144 bytes when
`max_number_of_files` is 32 and 524288 bytes when it is 64 — on every
successful path. -/
theorem claim_C2_image_size (modus : String) (files : List (List Char × List Nat))
    (img : List Nat) (cts : List FileContent) (fr : Nat)
    (h : build modus files = .ok (img, cts, fr)) :
    ∃ cfg, get_config modus = .ok cfg ∧ img.length = cfg.final_file_size ∧
      (cfg.max_number_of_files = 32 → img.length = 262144) ∧
      (cfg.max_number_of_files = 64 → img.length = 524288) := by
  by_cases hne : files.length = 0
  · exfalso
    simp only [build] at h
    rw [if_pos hne] at h
    exact Except.noConfusion h
  cases hgc : get_config modus with
  | error e =>
    exfalso
    simp only [build] at h
    rw [if_neg hne, hgc] at h
    dsimp only at h
    exact Except.noConfusion h
  | ok cfg =>
  refine ⟨cfg, rfl, ?_⟩
  rcases get_config_cases hgc with ⟨-, hc⟩ | ⟨-, hc⟩
  · subst hc
    have hlen := build_ok_image_length hgc rfl rfl rfl (by decide) h
    exact ⟨hlen, fun _ => by rw [hlen]; rfl, fun hmax => absurd hmax (by decide)⟩
  · subst hc
    have hlen := build_ok_image_length hgc rfl rfl rfl (by decide) h
    exact ⟨hlen, fun hmax => absurd hmax (by decide), fun _ => by rw [hlen]; rfl⟩

theorem move_smallest_two (cfg : Config) (a b : FileContent) :
    move_smallest_file_to_back cfg [a, b] =
      if waste_score cfg.padding_size b.content < waste_score cfg.padding_size a.content
      then ([a, b], 1) else ([b, a], 0) := by
  simp only [move_smallest_file_to_back]
  rw [show ((List.range ([a, b] : List FileContent).length).map
      (fun i => (waste_score cfg.padding_size
        (([a, b] : List FileContent).getD i default).content, i))) =
      [(waste_score cfg.padding_size a.content, 0),
       (waste_score cfg.padding_size b.content, 1)] from rfl]
  dsimp only
  simp only [py_min_fold]
  by_cases h : waste_score cfg.padding_size b.content <
      waste_score cfg.padding_size a.content
  · rw [if_pos (Or.inl h), if_pos h]
    rfl
  · have hC : ¬ (waste_score cfg.padding_size b.content <
        waste_score cfg.padding_size a.content ∨
        (waste_score cfg.padding_size b.content =
          waste_score cfg.padding_size a.content ∧ (1 : Nat) < 0)) := by
      rintro (h1 | ⟨h1, h2⟩)
      · exact h h1
      · exact absurd h2 (by norm_num)
    rw [if_neg hC, if_neg h]
    rfl

theorem create_directory_entry_eval {cfg : Config} {fc : FileContent}
    {st ex : List Char} {L : Nat} {nc sb nr : List Nat}
    (hsplit : splitext fc.filename = (st, '.' :: ex))
    (hst : st.all (fun c => c.toNat < 128) = true)
    (hex : ex.all (fun c => c.toNat < 128) = true)
    (hL : fc.content.length = L)
    (hnc : to_bytes_le 1 ((L / cfg.cluster_size : Nat) : Int) = .ok nc)
    (hsb : to_bytes_le 2 fc.starting_sector = .ok sb)
    (hnr : to_bytes_le 1 (((L % cfg.cluster_size + 127) / 128 : Nat) : Int) = .ok nr) :
    create_directory_entry cfg fc = .ok (
      let r0 := [1] ++ st.map Char.toNat ++
        List.replicate (cfg.max_stem_size - st.length) 0x20 ++
        ex.map Char.toNat ++
        List.replicate (cfg.max_extension_size - ex.length) 0x20 ++
        nc ++ sb ++ nr
      let r1 := r0.set 2 (set_bit (r0.getD 2 0) 7)
      let r2 := r1.set 8 (set_bit (r1.getD 8 0) 7)
      r2.set 9 (set_bit (r2.getD 9 0) 7)) := by
  simp only [create_directory_entry]
  rw [hsplit]
  simp only [List.drop_one, List.tail_cons, List.headD_cons]
  rw [if_pos trivial, if_pos hst, if_pos hex, hL, hnc]
  dsimp only
  rw [hsb]
  dsimp only
  rw [hnr]

theorem write_directory_eq_ok_at {cfg : Config} {contents : List FileContent}
    {buf : List Nat} {pr : List FileContent × List Nat × Nat}
    {entries : List (List Nat)} (sw : Nat)
    (hp : pad_file_until_directory_with_dummy_rom cfg contents buf = .ok pr)
    (he : except_map_list (create_directory_entry cfg) pr.1 = .ok entries) :
    write_directory cfg contents buf sw =
      .ok (pr.2.1 ++ (list_swap entries (entries.length - 1) sw).flatten ++
        List.replicate ((cfg.max_number_of_files - pr.1.length) * 16) 229, pr.1, pr.2.2) :=
  write_directory_eq_ok hp he

set_option linter.unusedVariables false

theorem scenario_a_build_eq :
    build "M048" scenario_a_files = .ok (scenario_a_image, scenario_a_contents, 60) := by
  have hgc : get_config "M048" = .ok config_M048 := rfl
  have hv : validate_files config_M048 scenario_a_files =
      .ok [⟨"A.X".data, List.replicate 5000 0, -1⟩,
           ⟨"B.X".data, List.replicate 3000 0, -1⟩] := rfl
  have hne : scenario_a_files.length ≠ 0 := by decide
  have hwsA : waste_score config_M048.padding_size (List.replicate 5000 (0 : Nat)) = 903 := by
    simp only [waste_score]
    rw [List.length_replicate]
    decide
  have hwsB : waste_score config_M048.padding_size (List.replicate 3000 (0 : Nat)) = 2999 := by
    simp only [waste_score]
    rw [List.length_replicate]
    decide
  have hmove : move_smallest_file_to_back config_M048
      [⟨"A.X".data, List.replicate 5000 0, -1⟩, ⟨"B.X".data, List.replicate 3000 0, -1⟩] =
      ([⟨"B.X".data, List.replicate 3000 0, -1⟩,
        ⟨"A.X".data, List.replicate 5000 0, -1⟩], 0) := by
    rw [move_smallest_two]
    rw [show (⟨"B.X".data, List.replicate 3000 0, -1⟩ : FileContent).content =
        List.replicate 3000 0 from rfl,
      show (⟨"A.X".data, List.replicate 5000 0, -1⟩ : FileContent).content =
        List.replicate 5000 0 from rfl, hwsB, hwsA]
    rw [if_neg (by decide)]
  have hW : write_files_loop config_M048
      [⟨"B.X".data, List.replicate 3000 0, -1⟩, ⟨"A.X".data, List.replicate 5000 0, -1⟩] [] =
      ([⟨"B.X".data, List.replicate 3000 0, 0⟩, ⟨"A.X".data, List.replicate 5000 0, 32⟩],
       List.replicate 3000 0 ++ List.replicate 1096 0 ++
       List.replicate 5000 0 ++ List.replicate 3192 0) := by
    rw [write_files_loop_cons, write_files_loop_cons, write_files_loop_nil]
    rw [show (⟨"B.X".data, List.replicate 3000 0, -1⟩ : FileContent).content =
        List.replicate 3000 0 from rfl,
      show (⟨"A.X".data, List.replicate 5000 0, -1⟩ : FileContent).content =
        List.replicate 5000 0 from rfl]
    rw [show config_M048.padding_size -
        (List.replicate 3000 (0 : Nat)).length % config_M048.padding_size = 1096 by
      rw [List.length_replicate]; norm_num [config_M048]]
    rw [show config_M048.padding_size -
        (List.replicate 5000 (0 : Nat)).length % config_M048.padding_size = 3192 by
      rw [List.length_replicate]; norm_num [config_M048]]
    rw [List.nil_append]
    have h4096 : (List.replicate 3000 (0 : Nat) ++ List.replicate 1096 0).length = 4096 := by
      simp only [List.length_append, List.length_replicate]
    rw [h4096]
    rfl
  have hBlen : (List.replicate 3000 (0 : Nat) ++ List.replicate 1096 0 ++
      List.replicate 5000 0 ++ List.replicate 3192 0).length = 12288 := by
    simp only [List.length_append, List.length_replicate]
  have hwf : write_files_with_padding config_M048
      [⟨"B.X".data, List.replicate 3000 0, -1⟩, ⟨"A.X".data, List.replicate 5000 0, -1⟩] =
      .ok ([⟨"B.X".data, List.replicate 3000 0, 0⟩, ⟨"A.X".data, List.replicate 5000 0, 32⟩],
        List.replicate 3000 0 ++ List.replicate 1096 0 ++
        List.replicate 5000 0 ++ List.replicate 3192 0) := by
    simp only [write_files_with_padding, hW]
    rw [if_neg (by rw [hBlen]; norm_num [config_M048])]
  have hfsz : (List.replicate 3000 (0 : Nat) ++ List.replicate 1096 0 ++
      List.replicate 5000 0 ++ List.replicate 3192 0).length ≠
      config_M048.final_file_size := by
    rw [hBlen]
    norm_num [config_M048]
  have hct : ([⟨"B.X".data, List.replicate 3000 0, 0⟩,
      ⟨"A.X".data, List.replicate 5000 0, 32⟩] : List FileContent).length ≠
      config_M048.max_number_of_files := by decide
  have hp0 := pad_dummy_ok hfsz hct
  have hp : pad_file_until_directory_with_dummy_rom config_M048
      [⟨"B.X".data, List.replicate 3000 0, 0⟩, ⟨"A.X".data, List.replicate 5000 0, 32⟩]
      (List.replicate 3000 0 ++ List.replicate 1096 0 ++
       List.replicate 5000 0 ++ List.replicate 3192 0) =
      .ok ([⟨"B.X".data, List.replicate 3000 0, 0⟩, ⟨"A.X".data, List.replicate 5000 0, 32⟩,
            ⟨"DUMMY.ROM".data, List.replicate 249856 229, 96⟩],
        (List.replicate 3000 0 ++ List.replicate 1096 0 ++
         List.replicate 5000 0 ++ List.replicate 3192 0 ++
         List.replicate 249856 229).take 261632, 60) := by
    rw [hp0, hBlen]
    rw [show config_M048.final_file_size - 12288 = 249856 from rfl]
    have h262144 : (List.replicate 3000 (0 : Nat) ++ List.replicate 1096 0 ++
        List.replicate 5000 0 ++ List.replicate 3192 0 ++
        List.replicate 249856 229).length = 262144 := by
      rw [List.length_append, hBlen, List.length_replicate]
    rw [h262144]
    rw [show (262144 : Nat) -
        config_M048.max_number_of_files * config_M048.directory_entry_size = 261632 by
      norm_num [config_M048]]
    rw [show ((12288 : Nat) / config_M048.sector_size) = 96 from rfl]
    rw [show config_M048.final_file_size / config_M048.padding_size -
        12288 / config_M048.padding_size = 61 from rfl]
    rw [if_pos (by norm_num)]
    rfl
  have heB : create_directory_entry config_M048 ⟨"B.X".data, List.replicate 3000 0, 0⟩ =
      .ok [1, 66, 160, 32, 32, 32, 32, 32, 160, 216, 32, 32, 0, 0, 0, 24] :=
    (create_directory_entry_eval
      (by decide : splitext (⟨"B.X".data, List.replicate 3000 0, 0⟩ : FileContent).filename =
        ("B".data, '.' :: "X".data))
      (by decide) (by decide)
      (by rw [show (⟨"B.X".data, List.replicate 3000 0, 0⟩ : FileContent).content =
        List.replicate 3000 0 from rfl, List.length_replicate] :
        (⟨"B.X".data, List.replicate 3000 0, 0⟩ : FileContent).content.length = 3000)
      (by decide : to_bytes_le 1 ((3000 / config_M048.cluster_size : Nat) : Int) = .ok [0])
      (by decide : to_bytes_le 2
        ((⟨"B.X".data, List.replicate 3000 0, 0⟩ : FileContent).starting_sector) = .ok [0, 0])
      (by decide : to_bytes_le 1
        (((3000 % config_M048.cluster_size + 127) / 128 : Nat) : Int) = .ok [24])).trans
      (by decide)
  have heA : create_directory_entry config_M048 ⟨"A.X".data, List.replicate 5000 0, 32⟩ =
      .ok [1, 65, 160, 32, 32, 32, 32, 32, 160, 216, 32, 32, 0, 32, 0, 40] :=
    (create_directory_entry_eval
      (by decide : splitext (⟨"A.X".data, List.replicate 5000 0, 32⟩ : FileContent).filename =
        ("A".data, '.' :: "X".data))
      (by decide) (by decide)
      (by rw [show (⟨"A.X".data, List.replicate 5000 0, 32⟩ : FileContent).content =
        List.replicate 5000 0 from rfl, List.length_replicate] :
        (⟨"A.X".data, List.replicate 5000 0, 32⟩ : FileContent).content.length = 5000)
      (by decide : to_bytes_le 1 ((5000 / config_M048.cluster_size : Nat) : Int) = .ok [0])
      (by decide : to_bytes_le 2
        ((⟨"A.X".data, List.replicate 5000 0, 32⟩ : FileContent).starting_sector) = .ok [32, 0])
      (by decide : to_bytes_le 1
        (((5000 % config_M048.cluster_size + 127) / 128 : Nat) : Int) = .ok [40])).trans
      (by decide)
  have heD : create_directory_entry config_M048
      ⟨"DUMMY.ROM".data, List.replicate 249856 229, 96⟩ =
      .ok [1, 68, 213, 77, 77, 89, 32, 32, 160, 210, 79, 77, 15, 96, 0, 32] :=
    (create_directory_entry_eval
      (by decide : splitext
        (⟨"DUMMY.ROM".data, List.replicate 249856 229, 96⟩ : FileContent).filename =
        ("DUMMY".data, '.' :: "ROM".data))
      (by decide) (by decide)
      (by rw [show (⟨"DUMMY.ROM".data, List.replicate 249856 229, 96⟩ :
          FileContent).content = List.replicate 249856 229 from rfl, List.length_replicate] :
        (⟨"DUMMY.ROM".data, List.replicate 249856 229, 96⟩ :
          FileContent).content.length = 249856)
      (by decide : to_bytes_le 1 ((249856 / config_M048.cluster_size : Nat) : Int) = .ok [15])
      (by decide : to_bytes_le 2
        ((⟨"DUMMY.ROM".data, List.replicate 249856 229, 96⟩ :
          FileContent).starting_sector) = .ok [96, 0])
      (by decide : to_bytes_le 1
        (((249856 % config_M048.cluster_size + 127) / 128 : Nat) : Int) = .ok [32])).trans
      (by decide)
  have hEML : except_map_list (create_directory_entry config_M048)
      [⟨"B.X".data, List.replicate 3000 0, 0⟩, ⟨"A.X".data, List.replicate 5000 0, 32⟩,
       ⟨"DUMMY.ROM".data, List.replicate 249856 229, 96⟩] =
      .ok [[1, 66, 160, 32, 32, 32, 32, 32, 160, 216, 32, 32, 0, 0, 0, 24],
           [1, 65, 160, 32, 32, 32, 32, 32, 160, 216, 32, 32, 0, 32, 0, 40],
           [1, 68, 213, 77, 77, 89, 32, 32, 160, 210, 79, 77, 15, 96, 0, 32]] :=
    except_map_list_cons_ok heB (except_map_list_cons_ok heA
      (except_map_list_cons_ok heD (except_map_list_nil _)))
  have hwd := write_directory_eq_ok_at 0 hp hEML
  have hb := build_write_ok hne hgc hv (by rw [hmove]; exact hwf)
  rw [hb, hmove]
  rw [show ((([⟨"B.X".data, List.replicate 3000 0, -1⟩,
      ⟨"A.X".data, List.replicate 5000 0, -1⟩] : List FileContent), (0 : Nat))).2 = 0 from rfl]
  rw [hwd]
  simp only [scenario_a_image, scenario_a_contents, List.append_assoc]
  rfl

theorem claim_C2_image_size_witness :
    ∃ cfg, get_config "M048" = .ok cfg ∧
      scenario_a_image.length = cfg.final_file_size ∧
      (cfg.max_number_of_files = 32 → scenario_a_image.length = 262144) ∧
      (cfg.max_number_of_files = 64 → scenario_a_image.length = 524288) :=
  claim_C2_image_size "M048" scenario_a_files scenario_a_image scenario_a_contents 60
    scenario_a_build_eq

/-- C10 counterexample: on the two-file (5000- and 3000-byte) `M048`
input, the content region occupies three 4096-byte padding blocks
(12288 bytes), not the claimed two blocks (8192 bytes), and a
`DUMMY.ROM` filler entry *is* appended — the dummy branch, not the
carve-from-free-blocks branch, runs even though `freeBlocks > 0`. -/
theorem claim_C10_counterexample :
    build "M048" scenario_a_files = .ok (scenario_a_image, scenario_a_contents, 60) ∧
    scenario_a_contents.map FileContent.filename =
      ["B.X".data, "A.X".data, "DUMMY.ROM".data] ∧
    used_size config_M048.padding_size
      [⟨"A.X".data, List.replicate 5000 0, -1⟩, ⟨"B.X".data, List.replicate 3000 0, -1⟩] =
      12288 ∧
    (12288 : Nat) ≠ 2 * config_M048.padding_size := by
  refine ⟨scenario_a_build_eq, by decide, ?_, by decide⟩
  rw [used_size_cons, used_size_cons, used_size_nil, padded_size_def, padded_size_def]
  rw [show (⟨"A.X".data, List.replicate 5000 0, -1⟩ : FileContent).content =
    List.replicate 5000 0 from rfl]
  rw [show (⟨"B.X".data, List.replicate 3000 0, -1⟩ : FileContent).content =
    List.replicate 3000 0 from rfl]
  rw [List.length_replicate, List.length_replicate]
  norm_num [config_M048]

/-- C10, amended: on the two-file (5000- and 3000-byte) `M048` input the
build succeeds with a 262144-byte image; the files' padded content uses
three 4096-byte padding blocks (12288 bytes), a 249856-byte `DUMMY.ROM`
filler is appended as a third entry, and 60 free blocks are reported. -/
theorem claim_C10_scenario_a :
    build "M048" scenario_a_files = .ok (scenario_a_image, scenario_a_contents, 60) ∧
    scenario_a_image.length = 262144 ∧
    used_size config_M048.padding_size
      [⟨"A.X".data, List.replicate 5000 0, -1⟩, ⟨"B.X".data, List.replicate 3000 0, -1⟩] =
      3 * config_M048.padding_size ∧
    scenario_a_contents.length = 3 ∧
    (scenario_a_contents.getD 2 default).filename = "DUMMY.ROM".data := by
  refine ⟨scenario_a_build_eq, ?_, ?_, by decide, by decide⟩
  · simp only [scenario_a_image, List.length_append, List.length_take,
      List.length_replicate, List.length_cons, List.length_nil]
    norm_num
  · rw [used_size_cons, used_size_cons, used_size_nil, padded_size_def, padded_size_def]
    rw [show (⟨"A.X".data, List.replicate 5000 0, -1⟩ : FileContent).content =
      List.replicate 5000 0 from rfl]
    rw [show (⟨"B.X".data, List.replicate 3000 0, -1⟩ : FileContent).content =
      List.replicate 3000 0 from rfl]
    rw [List.length_replicate, List.length_replicate]
    norm_num [config_M048]

theorem c1_build_eq :
    build "M048" c1_files =
      .ok ((List.replicate 200 0 ++ List.replicate 3896 0 ++ List.replicate 100 0 ++
            List.replicate 3996 0 ++ List.replicate 1 0 ++ List.replicate 4095 0 ++
            List.replicate 249856 229).take 261632 ++ c1_directory,
           [⟨"C.X".data, List.replicate 200 0, 0⟩, ⟨"B.X".data, List.replicate 100 0, 32⟩,
            ⟨"A.X".data, List.replicate 1 0, 64⟩,
            ⟨"DUMMY.ROM".data, List.replicate 249856 229, 96⟩], 60) := by
  have hgc : get_config "M048" = .ok config_M048 := rfl
  have hv : validate_files config_M048 c1_files =
      .ok [⟨"A.X".data, List.replicate 1 0, -1⟩, ⟨"B.X".data, List.replicate 100 0, -1⟩,
           ⟨"C.X".data, List.replicate 200 0, -1⟩] := rfl
  have hne : c1_files.length ≠ 0 := by decide
  have hmove : move_smallest_file_to_back config_M048
      [⟨"A.X".data, List.replicate 1 0, -1⟩, ⟨"B.X".data, List.replicate 100 0, -1⟩,
       ⟨"C.X".data, List.replicate 200 0, -1⟩] =
      ([⟨"C.X".data, List.replicate 200 0, -1⟩, ⟨"B.X".data, List.replicate 100 0, -1⟩,
        ⟨"A.X".data, List.replicate 1 0, -1⟩], 0) := rfl
  have hW : write_files_loop config_M048
      [⟨"C.X".data, List.replicate 200 0, -1⟩, ⟨"B.X".data, List.replicate 100 0, -1⟩,
       ⟨"A.X".data, List.replicate 1 0, -1⟩] [] =
      ([⟨"C.X".data, List.replicate 200 0, 0⟩, ⟨"B.X".data, List.replicate 100 0, 32⟩,
        ⟨"A.X".data, List.replicate 1 0, 64⟩],
       List.replicate 200 0 ++ List.replicate 3896 0 ++ List.replicate 100 0 ++
       List.replicate 3996 0 ++ List.replicate 1 0 ++ List.replicate 4095 0) := by
    rw [write_files_loop_cons, write_files_loop_cons, write_files_loop_cons,
      write_files_loop_nil]
    rw [show (⟨"C.X".data, List.replicate 200 0, -1⟩ : FileContent).content =
        List.replicate 200 0 from rfl,
      show (⟨"B.X".data, List.replicate 100 0, -1⟩ : FileContent).content =
        List.replicate 100 0 from rfl,
      show (⟨"A.X".data, List.replicate 1 0, -1⟩ : FileContent).content =
        List.replicate 1 0 from rfl]
    rw [show config_M048.padding_size -
        (List.replicate 200 (0 : Nat)).length % config_M048.padding_size = 3896 by
      rw [List.length_replicate]; norm_num [config_M048]]
    rw [show config_M048.padding_size -
        (List.replicate 100 (0 : Nat)).length % config_M048.padding_size = 3996 by
      rw [List.length_replicate]; norm_num [config_M048]]
    rw [show config_M048.padding_size -
        (List.replicate 1 (0 : Nat)).length % config_M048.padding_size = 4095 by
      rw [List.length_replicate]; norm_num [config_M048]]
    rw [List.nil_append]
    have h4096 : (List.replicate 200 (0 : Nat) ++ List.replicate 3896 0).length = 4096 := by
      simp only [List.length_append, List.length_replicate]
    have h8192 : (List.replicate 200 (0 : Nat) ++ List.replicate 3896 0 ++
        List.replicate 100 0 ++ List.replicate 3996 0).length = 8192 := by
      simp only [List.length_append, List.length_replicate]
    rw [h4096, h8192]
    rfl
  have hBlen : (List.replicate 200 (0 : Nat) ++ List.replicate 3896 0 ++
      List.replicate 100 0 ++ List.replicate 3996 0 ++ List.replicate 1 0 ++
      List.replicate 4095 0).length = 12288 := by
    simp only [List.length_append, List.length_replicate]
  have hwf : write_files_with_padding config_M048
      [⟨"C.X".data, List.replicate 200 0, -1⟩, ⟨"B.X".data, List.replicate 100 0, -1⟩,
       ⟨"A.X".data, List.replicate 1 0, -1⟩] =
      .ok ([⟨"C.X".data, List.replicate 200 0, 0⟩, ⟨"B.X".data, List.replicate 100 0, 32⟩,
            ⟨"A.X".data, List.replicate 1 0, 64⟩],
        List.replicate 200 0 ++ List.replicate 3896 0 ++ List.replicate 100 0 ++
        List.replicate 3996 0 ++ List.replicate 1 0 ++ List.replicate 4095 0) := by
    simp only [write_files_with_padding, hW]
    rw [if_neg (by rw [hBlen]; norm_num [config_M048])]
  have hfsz : (List.replicate 200 (0 : Nat) ++ List.replicate 3896 0 ++
      List.replicate 100 0 ++ List.replicate 3996 0 ++ List.replicate 1 0 ++
      List.replicate 4095 0).length ≠ config_M048.final_file_size := by
    rw [hBlen]
    norm_num [config_M048]
  have hct : ([⟨"C.X".data, List.replicate 200 0, 0⟩, ⟨"B.X".data, List.replicate 100 0, 32⟩,
      ⟨"A.X".data, List.replicate 1 0, 64⟩] : List FileContent).length ≠
      config_M048.max_number_of_files := by decide
  have hp0 := pad_dummy_ok hfsz hct
  have hp : pad_file_until_directory_with_dummy_rom config_M048
      [⟨"C.X".data, List.replicate 200 0, 0⟩, ⟨"B.X".data, List.replicate 100 0, 32⟩,
       ⟨"A.X".data, List.replicate 1 0, 64⟩]
      (List.replicate 200 0 ++ List.replicate 3896 0 ++ List.replicate 100 0 ++
       List.replicate 3996 0 ++ List.replicate 1 0 ++ List.replicate 4095 0) =
      .ok ([⟨"C.X".data, List.replicate 200 0, 0⟩, ⟨"B.X".data, List.replicate 100 0, 32⟩,
            ⟨"A.X".data, List.replicate 1 0, 64⟩,
            ⟨"DUMMY.ROM".data, List.replicate 249856 229, 96⟩],
        (List.replicate 200 0 ++ List.replicate 3896 0 ++ List.replicate 100 0 ++
         List.replicate 3996 0 ++ List.replicate 1 0 ++ List.replicate 4095 0 ++
         List.replicate 249856 229).take 261632, 60) := by
    rw [hp0, hBlen]
    rw [show config_M048.final_file_size - 12288 = 249856 from rfl]
    have h262144 : (List.replicate 200 (0 : Nat) ++ List.replicate 3896 0 ++
        List.replicate 100 0 ++ List.replicate 3996 0 ++ List.replicate 1 0 ++
        List.replicate 4095 0 ++ List.replicate 249856 229).length = 262144 := by
      rw [List.length_append, hBlen, List.length_replicate]
    rw [h262144]
    rw [show (262144 : Nat) -
        config_M048.max_number_of_files * config_M048.directory_entry_size = 261632 by
      norm_num [config_M048]]
    rw [show ((12288 : Nat) / config_M048.sector_size) = 96 from rfl]
    rw [show config_M048.final_file_size / config_M048.padding_size -
        12288 / config_M048.padding_size = 61 from rfl]
    rw [if_pos (by norm_num)]
    rfl
  have heC : create_directory_entry config_M048 ⟨"C.X".data, List.replicate 200 0, 0⟩ =
      .ok [1, 67, 160, 32, 32, 32, 32, 32, 160, 216, 32, 32, 0, 0, 0, 2] :=
    (create_directory_entry_eval
      (by decide : splitext (⟨"C.X".data, List.replicate 200 0, 0⟩ : FileContent).filename =
        ("C".data, '.' :: "X".data))
      (by decide) (by decide)
      (by rw [show (⟨"C.X".data, List.replicate 200 0, 0⟩ : FileContent).content =
        List.replicate 200 0 from rfl, List.length_replicate] :
        (⟨"C.X".data, List.replicate 200 0, 0⟩ : FileContent).content.length = 200)
      (by decide : to_bytes_le 1 ((200 / config_M048.cluster_size : Nat) : Int) = .ok [0])
      (by decide : to_bytes_le 2
        ((⟨"C.X".data, List.replicate 200 0, 0⟩ : FileContent).starting_sector) = .ok [0, 0])
      (by decide : to_bytes_le 1
        (((200 % config_M048.cluster_size + 127) / 128 : Nat) : Int) = .ok [2])).trans
      (by decide)
  have heB : create_directory_entry config_M048 ⟨"B.X".data, List.replicate 100 0, 32⟩ =
      .ok [1, 66, 160, 32, 32, 32, 32, 32, 160, 216, 32, 32, 0, 32, 0, 1] :=
    (create_directory_entry_eval
      (by decide : splitext (⟨"B.X".data, List.replicate 100 0, 32⟩ : FileContent).filename =
        ("B".data, '.' :: "X".data))
      (by decide) (by decide)
      (by rw [show (⟨"B.X".data, List.replicate 100 0, 32⟩ : FileContent).content =
        List.replicate 100 0 from rfl, List.length_replicate] :
        (⟨"B.X".data, List.replicate 100 0, 32⟩ : FileContent).content.length = 100)
      (by decide : to_bytes_le 1 ((100 / config_M048.cluster_size : Nat) : Int) = .ok [0])
      (by decide : to_bytes_le 2
        ((⟨"B.X".data, List.replicate 100 0, 32⟩ : FileContent).starting_sector) = .ok [32, 0])
      (by decide : to_bytes_le 1
        (((100 % config_M048.cluster_size + 127) / 128 : Nat) : Int) = .ok [1])).trans
      (by decide)
  have heA : create_directory_entry config_M048 ⟨"A.X".data, List.replicate 1 0, 64⟩ =
      .ok [1, 65, 160, 32, 32, 32, 32, 32, 160, 216, 32, 32, 0, 64, 0, 1] :=
    (create_directory_entry_eval
      (by decide : splitext (⟨"A.X".data, List.replicate 1 0, 64⟩ : FileContent).filename =
        ("A".data, '.' :: "X".data))
      (by decide) (by decide)
      (by rw [show (⟨"A.X".data, List.replicate 1 0, 64⟩ : FileContent).content =
        List.replicate 1 0 from rfl, List.length_replicate] :
        (⟨"A.X".data, List.replicate 1 0, 64⟩ : FileContent).content.length = 1)
      (by decide : to_bytes_le 1 ((1 / config_M048.cluster_size : Nat) : Int) = .ok [0])
      (by decide : to_bytes_le 2
        ((⟨"A.X".data, List.replicate 1 0, 64⟩ : FileContent).starting_sector) = .ok [64, 0])
      (by decide : to_bytes_le 1
        (((1 % config_M048.cluster_size + 127) / 128 : Nat) : Int) = .ok [1])).trans
      (by decide)
  have heD : create_directory_entry config_M048
      ⟨"DUMMY.ROM".data, List.replicate 249856 229, 96⟩ =
      .ok [1, 68, 213, 77, 77, 89, 32, 32, 160, 210, 79, 77, 15, 96, 0, 32] :=
    (create_directory_entry_eval
      (by decide : splitext
        (⟨"DUMMY.ROM".data, List.replicate 249856 229, 96⟩ : FileContent).filename =
        ("DUMMY".data, '.' :: "ROM".data))
      (by decide) (by decide)
      (by rw [show (⟨"DUMMY.ROM".data, List.replicate 249856 229, 96⟩ :
          FileContent).content = List.replicate 249856 229 from rfl, List.length_replicate] :
        (⟨"DUMMY.ROM".data, List.replicate 249856 229, 96⟩ :
          FileContent).content.length = 249856)
      (by decide : to_bytes_le 1 ((249856 / config_M048.cluster_size : Nat) : Int) = .ok [15])
      (by decide : to_bytes_le 2
        ((⟨"DUMMY.ROM".data, List.replicate 249856 229, 96⟩ :
          FileContent).starting_sector) = .ok [96, 0])
      (by decide : to_bytes_le 1
        (((249856 % config_M048.cluster_size + 127) / 128 : Nat) : Int) = .ok [32])).trans
      (by decide)
  have hEML : except_map_list (create_directory_entry config_M048)
      [⟨"C.X".data, List.replicate 200 0, 0⟩, ⟨"B.X".data, List.replicate 100 0, 32⟩,
       ⟨"A.X".data, List.replicate 1 0, 64⟩,
       ⟨"DUMMY.ROM".data, List.replicate 249856 229, 96⟩] =
      .ok [[1, 67, 160, 32, 32, 32, 32, 32, 160, 216, 32, 32, 0, 0, 0, 2],
           [1, 66, 160, 32, 32, 32, 32, 32, 160, 216, 32, 32, 0, 32, 0, 1],
           [1, 65, 160, 32, 32, 32, 32, 32, 160, 216, 32, 32, 0, 64, 0, 1],
           [1, 68, 213, 77, 77, 89, 32, 32, 160, 210, 79, 77, 15, 96, 0, 32]] :=
    except_map_list_cons_ok heC (except_map_list_cons_ok heB (except_map_list_cons_ok heA
      (except_map_list_cons_ok heD (except_map_list_nil _))))
  have hwd := write_directory_eq_ok_at 0 hp hEML
  have hb := build_write_ok hne hgc hv (by rw [hmove]; exact hwf)
  rw [hb, hmove]
  rw [show ((([⟨"C.X".data, List.replicate 200 0, -1⟩,
      ⟨"B.X".data, List.replicate 100 0, -1⟩, ⟨"A.X".data, List.replicate 1 0, -1⟩] :
      List FileContent), (0 : Nat))).2 = 0 from rfl]
  rw [hwd]
  simp only [c1_directory, List.append_assoc]
  rfl

/-- C1: the spec's claim that the final swap restores input order fails
when a dummy filler was appended: for the three-file input `A.X`, `B.X`,
`C.X` the directory region lists the records as `DUMMY.ROM`, `B.X`,
`A.X`, `C.X` (stem initials 68, 66, 65, 67 at rows 0-3), because the
swap at `kc85.py:299` exchanges the dummy's record (now last) with the
record at the recorded index instead of undoing the earlier move. -/
theorem claim_C1_directory_order :
    c1_files.map Prod.fst = ["A.X".data, "B.X".data, "C.X".data] ∧
    ∃ img cts free, build "M048" c1_files = .ok (img, cts, free) ∧
      img.drop 261632 = c1_directory ∧
      c1_directory.getD 1 0 = 68 ∧ c1_directory.getD 17 0 = 66 ∧
      c1_directory.getD 33 0 = 65 ∧ c1_directory.getD 49 0 = 67 := by
  refine ⟨by decide, _, _, 60, c1_build_eq, ?_, by decide, by decide, by decide, by decide⟩
  have htl : ((List.replicate 200 (0 : Nat) ++ List.replicate 3896 0 ++
      List.replicate 100 0 ++ List.replicate 3996 0 ++ List.replicate 1 0 ++
      List.replicate 4095 0 ++ List.replicate 249856 229).take 261632).length = 261632 := by
    simp only [List.length_take, List.length_append, List.length_replicate]
    norm_num
  rw [List.drop_left' htl]
